import Mathlib

/-!
Verification of the invoice completion and amount-reconciliation engine.

This file shallowly embeds the Go sources of the `tax-ai-tools` repository:

* the amount validation / reconciliation service (`AmountValidation`:
  `selectBestAmount`, `calculateDiscrepancy`, `crossValidateAmounts`,
  `calculateMissingAmounts`, `ValidateAndReconcileAmounts`),
* the invoice completion service (`ValidateInvoice`, `parseAmount`,
  `mergeCompletionResults`, `validateCompletedInvoice`,
  `extractInvoiceFromText` retry loop, `CompleteInvoiceWithConfidence`),
* the ChatGPT-based transaction reconciliation service
  (`filterTransactionsByCutoff`, `findCandidateTransactions`, `ReconcileAll`).

Modelling conventions:
* Go `int64` cent amounts become `ℤ` (no arithmetic in the sources can
  overflow at the modelled inputs, and the sources treat them as exact
  integers); Go `float64`/`float32` values (confidences, discrepancy
  percentages, euro amounts in the reconciliation sheets) become `ℚ`,
  i.e. the float arithmetic is modelled as exact rational arithmetic.
* Warning strings produced via `fmt.Sprintf` are modelled as an inductive
  type carrying the format arguments, so warnings can be counted exactly.
* `context.Context` cancellation and the two external collaborators
  (OCR / ChatGPT) are modelled as explicit oracle parameters; the number
  of external calls performed is returned alongside the result.
* Fallible Go functions returning `(T, error)` become `Option T` or
  `Except String T`.
-/

/-! ## Amount validation service (invoice/amount_validation.go) -/

/-- `AmountSource` from the Go source: amounts (cents) from one extraction
source, with its confidence. -/
structure AmountSource where
  netAmount : ℤ
  vatAmount : ℤ
  grossAmount : ℤ
  source : String
  confidence : ℚ
deriving DecidableEq, Repr

/-- One warning message appended by the amount validation service.  Each
constructor corresponds to one `fmt.Sprintf` call site in the Go source and
carries that call's format arguments. -/
inductive AVWarning where
  | amountDiscrepancy (amountType : String) (documentAI chatGPT : ℤ) (discrepancyPct : ℚ)
  | calculationError (net vat gross difference : ℤ)
  | grossCalculated
  | netCalculated
  | vatCalculated
deriving DecidableEq, Repr

/-- The mutable part of `AmountValidationResult`: warnings, the discrepancy
flag and the maximum per-field discrepancy percentage. -/
structure AVState where
  warnings : List AVWarning
  hasDiscrepancy : Bool
  maxDiscrepancy : ℚ
deriving DecidableEq, Repr

/-- The three amount fields of an invoice, in cents. -/
structure Amounts where
  net : ℤ
  vat : ℤ
  gross : ℤ
deriving DecidableEq, Repr

/-- Go helper `maxInt64`. -/
def maxInt64 (a b : ℤ) : ℤ := if a > b then a else b

/-- Go helper `minInt64`. -/
def minInt64 (a b : ℤ) : ℤ := if a < b then a else b

/-- Go helper `abs` (on `int64`). -/
def absInt64 (x : ℤ) : ℤ := if x < 0 then -x else x

/-- `calculateDiscrepancy` from the Go source: percentage difference between
two amounts (float arithmetic modelled over `ℚ`, `math.Abs` as `|·|`). -/
def calculateDiscrepancy (amount1 amount2 : ℤ) : ℚ :=
  if amount1 = 0 ∧ amount2 = 0 then 0
  else if amount1 = 0 ∨ amount2 = 0 then 100
  else
    let larger : ℚ := (maxInt64 amount1 amount2 : ℤ)
    let smaller : ℚ := (minInt64 amount1 amount2 : ℤ)
    |(larger - smaller) / larger| * 100

/-- `selectBestAmount` from the Go source: chooses the best amount from the
two sources, threading the result state explicitly (in Go the state lives in
the mutable `AmountValidationResult`). -/
def selectBestAmount (amountType : String) (documentAIAmount chatGPTAmount : ℤ)
    (documentAI chatGPT : AmountSource) (st : AVState) : ℤ × AVState :=
  if 0 < documentAIAmount ∧ 0 < chatGPTAmount then
    let discrepancy := calculateDiscrepancy documentAIAmount chatGPTAmount
    let st1 := if st.maxDiscrepancy < discrepancy
      then { st with maxDiscrepancy := discrepancy } else st
    if discrepancy ≤ 5 then
      (documentAIAmount, st1)
    else
      let st2 := { st1 with
        warnings := st1.warnings ++
          [AVWarning.amountDiscrepancy amountType documentAIAmount chatGPTAmount discrepancy],
        hasDiscrepancy := true }
      if chatGPT.confidence ≤ documentAI.confidence then
        (documentAIAmount, st2)
      else
        (chatGPTAmount, st2)
  else if documentAIAmount ≠ 0 then
    (documentAIAmount, st)
  else if chatGPTAmount ≠ 0 then
    (chatGPTAmount, st)
  else
    (0, st)

/-- `crossValidateAmounts` from the Go source: counts the strictly positive
fields, returns unchanged when fewer than two, and warns when all three are
positive and `|net + vat - gross|` exceeds 2 cents.  The Go function only
reads the invoice amounts (it never writes them); the amounts are returned
alongside the state to make that explicit. -/
def crossValidateAmounts (a : Amounts) (st : AVState) : Amounts × AVState :=
  let nonZeroCount : ℕ :=
    (if 0 < a.net then 1 else 0) + (if 0 < a.vat then 1 else 0) +
      (if 0 < a.gross then 1 else 0)
  if nonZeroCount < 2 then (a, st)
  else if 0 < a.net ∧ 0 < a.vat ∧ 0 < a.gross then
    let calculated := a.net + a.vat
    let difference := absInt64 (calculated - a.gross)
    if 2 < difference then
      (a, { st with
        warnings := st.warnings ++ [AVWarning.calculationError a.net a.vat a.gross difference],
        hasDiscrepancy := true })
    else (a, st)
  else (a, st)

/-- `calculateMissingAmounts` from the Go amount-validation source (the
`AmountValidation` method, distinct from the completion service's function of
the same name): fills a zero field from the other two when both are strictly
positive, appending one warning per synthesized field; the three checks run
in order on the updated amounts, exactly as in Go. -/
def calculateMissingAmountsAV (a : Amounts) (st : AVState) : Amounts × AVState :=
  let p1 :=
    if 0 < a.net ∧ 0 < a.vat ∧ a.gross = 0 then
      ({ a with gross := a.net + a.vat },
        { st with warnings := st.warnings ++ [AVWarning.grossCalculated] })
    else (a, st)
  let p2 :=
    if 0 < p1.1.gross ∧ 0 < p1.1.vat ∧ p1.1.net = 0 then
      ({ p1.1 with net := p1.1.gross - p1.1.vat },
        { p1.2 with warnings := p1.2.warnings ++ [AVWarning.netCalculated] })
    else p1
  if 0 < p2.1.gross ∧ 0 < p2.1.net ∧ p2.1.vat = 0 then
    ({ p2.1 with vat := p2.1.gross - p2.1.net },
      { p2.2 with warnings := p2.2.warnings ++ [AVWarning.vatCalculated] })
  else p2

/-- `ValidateAndReconcileAmounts` from the Go source, restricted to the three
amount fields it computes (the Go method copies the base invoice and then
overwrites exactly these three fields): per-field arbitration, then
cross-validation, then missing-amount synthesis. -/
def validateAndReconcileAmounts (documentAI chatGPT : AmountSource) : Amounts × AVState :=
  let st0 : AVState := ⟨[], false, 0⟩
  let r1 := selectBestAmount "net" documentAI.netAmount chatGPT.netAmount documentAI chatGPT st0
  let r2 := selectBestAmount "vat" documentAI.vatAmount chatGPT.vatAmount documentAI chatGPT r1.2
  let r3 := selectBestAmount "gross" documentAI.grossAmount chatGPT.grossAmount documentAI chatGPT r2.2
  let r4 := crossValidateAmounts ⟨r1.1, r2.1, r3.1⟩ r3.2
  calculateMissingAmountsAV r4.1 r4.2

/-! ### Claim-side definitions for C1-C3 (written from the spec's words) -/

/-- Claim C1's discrepancy formula, verbatim from the spec:
`|larger-smaller|/larger * 100`. -/
def claimedDiscrepancy (a b : ℤ) : ℚ :=
  |(max a b : ℚ) - (min a b : ℚ)| / (max a b : ℚ) * 100

/-- Claim C1 as frozen, written from the claim's words: per amount field,
with both sources non-zero the discrepancy decides (at most 5 percent: first
source; above: warning, flag, higher confidence wins with ties to the first
source); exactly one non-zero value (including negative) is used directly;
otherwise zero.  Returns (chosen value, warnings appended, flag set). -/
def claimedSelectBestAmount (first second : ℤ) (conf1 conf2 : ℚ) : ℤ × ℕ × Bool :=
  if first ≠ 0 ∧ second ≠ 0 then
    if claimedDiscrepancy first second ≤ 5 then (first, 0, false)
    else ((if conf1 ≥ conf2 then first else second), 1, true)
  else if first ≠ 0 then (first, 0, false)
  else if second ≠ 0 then (second, 0, false)
  else (0, 0, false)

/-- Claim C1 amended: the both-sources arbitration branch requires both
values strictly positive (not merely non-zero); in every other case the
first source's value is used when non-zero, else the second's, else zero. -/
def amendedSelectBestAmount (first second : ℤ) (conf1 conf2 : ℚ) : ℤ × ℕ × Bool :=
  if 0 < first ∧ 0 < second then
    if claimedDiscrepancy first second ≤ 5 then (first, 0, false)
    else ((if conf1 ≥ conf2 then first else second), 1, true)
  else if first ≠ 0 then (first, 0, false)
  else if second ≠ 0 then (second, 0, false)
  else (0, 0, false)

/-- Claim C2 as frozen, written from the claim's words: whenever at least two
of the three fields are non-zero, `|net + tax - gross|` is checked; a gap
strictly above 2 produces a warning and sets the flag.  Returns (warnings
appended, flag set). -/
def claimedCrossValidate (a : Amounts) : ℕ × Bool :=
  let nonZero : ℕ :=
    (if a.net ≠ 0 then 1 else 0) + (if a.vat ≠ 0 then 1 else 0) +
      (if a.gross ≠ 0 then 1 else 0)
  if 2 ≤ nonZero ∧ 2 < |a.net + a.vat - a.gross| then (1, true) else (0, false)

/-- Claim C2 amended: the identity is checked only when all three fields are
strictly positive; only then does a gap above 2 minor units produce a warning
and set the flag, and nothing is appended otherwise. -/
def amendedCrossValidate (a : Amounts) : ℕ × Bool :=
  if 0 < a.net ∧ 0 < a.vat ∧ 0 < a.gross ∧ 2 < |a.net + a.vat - a.gross| then (1, true)
  else (0, false)

/-- Claim C3 as frozen, written from the claim's words: a field that is zero
while the other two are non-zero is derived arithmetically, with one warning
per synthesized field.  Returns (amounts, warnings appended). -/
def claimedCalculateMissing (a : Amounts) : Amounts × ℕ :=
  if a.gross = 0 ∧ a.net ≠ 0 ∧ a.vat ≠ 0 then (⟨a.net, a.vat, a.net + a.vat⟩, 1)
  else if a.net = 0 ∧ a.gross ≠ 0 ∧ a.vat ≠ 0 then (⟨a.gross - a.vat, a.vat, a.gross⟩, 1)
  else if a.vat = 0 ∧ a.gross ≠ 0 ∧ a.net ≠ 0 then (⟨a.net, a.gross - a.net, a.gross⟩, 1)
  else (a, 0)

/-- Claim C3 amended: a field that is zero while the other two are strictly
positive is derived arithmetically, with exactly one warning per synthesized
field; nothing is synthesized otherwise. -/
def amendedCalculateMissing (a : Amounts) : Amounts × ℕ :=
  if a.gross = 0 ∧ 0 < a.net ∧ 0 < a.vat then (⟨a.net, a.vat, a.net + a.vat⟩, 1)
  else if a.net = 0 ∧ 0 < a.gross ∧ 0 < a.vat then (⟨a.gross - a.vat, a.vat, a.gross⟩, 1)
  else if a.vat = 0 ∧ 0 < a.gross ∧ 0 < a.net then (⟨a.net, a.gross - a.net, a.gross⟩, 1)
  else (a, 0)

/-! ### Theorems for C1-C3 -/

lemma absInt64_eq (x : ℤ) : absInt64 x = |x| := by
  unfold absInt64
  rcases le_or_lt 0 x with h | h
  · rw [if_neg (not_lt.mpr h), abs_of_nonneg h]
  · rw [if_pos h, abs_of_neg h]

lemma maxInt64_eq (a b : ℤ) : maxInt64 a b = max a b := by
  unfold maxInt64
  rcases le_or_lt a b with h | h
  · rw [if_neg (not_lt.mpr h), max_eq_right h]
  · rw [if_pos h, max_eq_left h.le]

lemma minInt64_eq (a b : ℤ) : minInt64 a b = min a b := by
  unfold minInt64
  rcases le_or_lt b a with h | h
  · rw [if_neg (not_lt.mpr h), min_eq_right h]
  · rw [if_pos h, min_eq_left h.le]

/-- On strictly positive inputs the source's discrepancy formula agrees with
the claim's `|larger-smaller|/larger * 100`. -/
lemma calculateDiscrepancy_pos (a b : ℤ) (ha : 0 < a) (hb : 0 < b) :
    calculateDiscrepancy a b = claimedDiscrepancy a b := by
  have hne1 : ¬ (a = 0 ∧ b = 0) := by omega
  have hne2 : ¬ (a = 0 ∨ b = 0) := by omega
  have hM : (0:ℚ) < ((max a b : ℤ) : ℚ) := by
    exact_mod_cast lt_max_iff.mpr (Or.inl ha)
  simp only [calculateDiscrepancy, claimedDiscrepancy, maxInt64_eq, minInt64_eq, hne1, hne2,
    if_false]
  rw [abs_div, abs_of_pos hM]
  push_cast
  ring

/-- Claim C1 (amended), proved: for each amount field, `selectBestAmount`
returns exactly the value the amended claim prescribes, appends exactly the
prescribed number of warnings (appending, never rewriting, the existing
ones), and sets `hasDiscrepancy` exactly when the amended claim prescribes
it (never clearing an already-set flag).  The amendment: the two-source
arbitration branch fires only when both reported values are strictly
positive; in every other case (including both values non-zero with one of
them negative) the document-extraction value is used whenever it is
non-zero, else the generative value whenever it is non-zero, else zero. -/
theorem selectBestAmount_meets_amended_claim
    (amountType : String) (d c : ℤ) (s1 s2 : AmountSource) (st : AVState) :
    (selectBestAmount amountType d c s1 s2 st).1
        = (amendedSelectBestAmount d c s1.confidence s2.confidence).1 ∧
      (∃ w : List AVWarning,
        (selectBestAmount amountType d c s1 s2 st).2.warnings = st.warnings ++ w ∧
          w.length = (amendedSelectBestAmount d c s1.confidence s2.confidence).2.1) ∧
      (selectBestAmount amountType d c s1 s2 st).2.hasDiscrepancy
        = (st.hasDiscrepancy || (amendedSelectBestAmount d c s1.confidence s2.confidence).2.2) := by
  unfold selectBestAmount amendedSelectBestAmount
  by_cases hpos : 0 < d ∧ 0 < c
  · rw [if_pos hpos, if_pos hpos, calculateDiscrepancy_pos d c hpos.1 hpos.2]
    by_cases hdisc : claimedDiscrepancy d c ≤ 5
    · rw [if_pos hdisc, if_pos hdisc]
      refine ⟨rfl, ⟨[], by simp [apply_ite AVState.warnings], rfl⟩, ?_⟩
      simp [apply_ite AVState.hasDiscrepancy]
    · rw [if_neg hdisc, if_neg hdisc]
      refine ⟨?_, ⟨[AVWarning.amountDiscrepancy amountType d c (claimedDiscrepancy d c)],
          ?_, rfl⟩, ?_⟩ <;>
        simp [apply_ite Prod.fst, apply_ite Prod.snd, apply_ite AVState.warnings,
          apply_ite AVState.hasDiscrepancy, ge_iff_le]
  · rw [if_neg hpos, if_neg hpos]
    by_cases hd : d ≠ 0
    · rw [if_pos hd, if_pos hd]
      exact ⟨rfl, ⟨[], by simp, rfl⟩, by simp⟩
    · rw [if_neg hd, if_neg hd]
      by_cases hc : c ≠ 0
      · rw [if_pos hc, if_pos hc]
        exact ⟨rfl, ⟨[], by simp, rfl⟩, by simp⟩
      · rw [if_neg hc, if_neg hc]
        exact ⟨rfl, ⟨[], by simp, rfl⟩, by simp⟩

/-- Claim C1 as frozen is false on the code: with both sources non-zero but
the document-extraction value negative (a credit-note amount) and the
generative source both positive-valued and more confident, the claim
prescribes the generative value (100) with a warning and the discrepancy
flag, but `selectBestAmount` silently returns the document-extraction value
(-100) with no warning and no flag. -/
theorem selectBestAmount_claim_counterexample :
    (selectBestAmount "net" (-100) 100 ⟨-100, 0, 0, "document_ai", 1/10⟩
        ⟨100, 0, 0, "chatgpt", 9/10⟩ ⟨[], false, 0⟩).1 = -100 ∧
      (selectBestAmount "net" (-100) 100 ⟨-100, 0, 0, "document_ai", 1/10⟩
        ⟨100, 0, 0, "chatgpt", 9/10⟩ ⟨[], false, 0⟩).2.hasDiscrepancy = false ∧
      (selectBestAmount "net" (-100) 100 ⟨-100, 0, 0, "document_ai", 1/10⟩
        ⟨100, 0, 0, "chatgpt", 9/10⟩ ⟨[], false, 0⟩).2.warnings = [] ∧
      claimedSelectBestAmount (-100) 100 (1/10) (9/10) = (100, 1, true) := by
  refine ⟨by decide, by decide, by decide, ?_⟩
  have hd : ¬ claimedDiscrepancy (-100) 100 ≤ 5 := by
    unfold claimedDiscrepancy
    push_cast
    rw [show ((-100 : ℚ) ⊔ 100) = 100 by norm_num [max_def],
      show ((-100 : ℚ) ⊓ 100) = -100 by norm_num [min_def]]
    rw [abs_of_nonneg (by norm_num)]
    norm_num
  unfold claimedSelectBestAmount
  rw [if_pos (by decide), if_neg hd, if_neg (by norm_num)]

/-- Claim C2 (amended), proved: cross-validation never changes any amount
value; it appends one warning and sets `hasDiscrepancy` exactly when all
three reconciled fields are strictly positive and `|net + tax - gross|`
exceeds 2 minor units, and otherwise (including when only two of the three
fields are non-zero, and when any field is zero or negative) appends nothing
and changes no flag. -/
theorem crossValidateAmounts_meets_amended_claim (a : Amounts) (st : AVState) :
    (crossValidateAmounts a st).1 = a ∧
      (∃ w : List AVWarning,
        (crossValidateAmounts a st).2.warnings = st.warnings ++ w ∧
          w.length = (amendedCrossValidate a).1) ∧
      (crossValidateAmounts a st).2.hasDiscrepancy
        = (st.hasDiscrepancy || (amendedCrossValidate a).2) := by
  unfold crossValidateAmounts amendedCrossValidate
  by_cases hpos : 0 < a.net ∧ 0 < a.vat ∧ 0 < a.gross
  · have hcount :
        ¬ ((if 0 < a.net then 1 else 0) + (if 0 < a.vat then 1 else 0) +
            (if 0 < a.gross then 1 else 0) : ℕ) < 2 := by
      rw [if_pos hpos.1, if_pos hpos.2.1, if_pos hpos.2.2]
      omega
    rw [if_neg hcount, if_pos hpos]
    by_cases hdiff : 2 < absInt64 (a.net + a.vat - a.gross)
    · rw [if_pos hdiff,
        if_pos (by exact ⟨hpos.1, hpos.2.1, hpos.2.2, by rwa [absInt64_eq] at hdiff⟩)]
      exact ⟨rfl, ⟨[AVWarning.calculationError a.net a.vat a.gross
        (absInt64 (a.net + a.vat - a.gross))], rfl, rfl⟩, by simp⟩
    · rw [if_neg hdiff, if_neg (by
        rintro ⟨-, -, -, h⟩
        exact hdiff (by rwa [absInt64_eq]))]
      exact ⟨rfl, ⟨[], by simp, rfl⟩, by simp⟩
  · have hspec : ¬ (0 < a.net ∧ 0 < a.vat ∧ 0 < a.gross ∧
        2 < |a.net + a.vat - a.gross|) := by
      rintro ⟨h1, h2, h3, -⟩
      exact hpos ⟨h1, h2, h3⟩
    rw [if_neg hspec]
    by_cases hcount :
        ((if 0 < a.net then 1 else 0) + (if 0 < a.vat then 1 else 0) +
          (if 0 < a.gross then 1 else 0) : ℕ) < 2
    · rw [if_pos hcount]
      exact ⟨rfl, ⟨[], by simp, rfl⟩, by simp⟩
    · rw [if_neg hcount, if_neg hpos]
      exact ⟨rfl, ⟨[], by simp, rfl⟩, by simp⟩

/-- Claim C2 as frozen is false on the code: with net=8000, tax=1520,
gross=0 two of the three fields are non-zero and the gap
`|net + tax - gross| = 9520` far exceeds 2 minor units, so the claim
prescribes a warning and `hasDiscrepancy=true`, but `crossValidateAmounts`
(which also requires all three fields strictly positive) appends nothing
and sets no flag. -/
theorem crossValidateAmounts_claim_counterexample :
    crossValidateAmounts ⟨8000, 1520, 0⟩ ⟨[], false, 0⟩ = (⟨8000, 1520, 0⟩, ⟨[], false, 0⟩) ∧
      claimedCrossValidate ⟨8000, 1520, 0⟩ = (1, true) := by
  constructor <;> decide

/-- Claim C3 (amended), proved: a field that is zero after arbitration while
the other two are strictly positive is synthesized arithmetically
(`gross = net+tax`, `net = gross-tax`, `tax = gross-net`), with exactly one
explanatory warning per synthesized field and no other change; synthesis
runs as the final phase of `validateAndReconcileAmounts`, after
cross-validation; and on the claim's example (net=8000, tax=1520, gross=0
from the document source alone) the full reconciliation returns gross=9520
with exactly one (synthesis) warning. -/
theorem calculateMissingAmounts_meets_amended_claim :
    (∀ (a : Amounts) (st : AVState),
      (calculateMissingAmountsAV a st).1 = (amendedCalculateMissing a).1 ∧
        (∃ w : List AVWarning,
          (calculateMissingAmountsAV a st).2.warnings = st.warnings ++ w ∧
            w.length = (amendedCalculateMissing a).2) ∧
        (calculateMissingAmountsAV a st).2.hasDiscrepancy = st.hasDiscrepancy) ∧
      (∀ documentAI chatGPT : AmountSource,
        validateAndReconcileAmounts documentAI chatGPT =
          (fun p : Amounts × AVState => calculateMissingAmountsAV p.1 p.2)
            (crossValidateAmounts
              ⟨(selectBestAmount "net" documentAI.netAmount chatGPT.netAmount
                  documentAI chatGPT ⟨[], false, 0⟩).1,
                (selectBestAmount "vat" documentAI.vatAmount chatGPT.vatAmount
                  documentAI chatGPT
                  (selectBestAmount "net" documentAI.netAmount chatGPT.netAmount
                    documentAI chatGPT ⟨[], false, 0⟩).2).1,
                (selectBestAmount "gross" documentAI.grossAmount chatGPT.grossAmount
                  documentAI chatGPT
                  (selectBestAmount "vat" documentAI.vatAmount chatGPT.vatAmount
                    documentAI chatGPT
                    (selectBestAmount "net" documentAI.netAmount chatGPT.netAmount
                      documentAI chatGPT ⟨[], false, 0⟩).2).2).1⟩
              (selectBestAmount "gross" documentAI.grossAmount chatGPT.grossAmount
                documentAI chatGPT
                (selectBestAmount "vat" documentAI.vatAmount chatGPT.vatAmount
                  documentAI chatGPT
                  (selectBestAmount "net" documentAI.netAmount chatGPT.netAmount
                    documentAI chatGPT ⟨[], false, 0⟩).2).2).2)) ∧
      validateAndReconcileAmounts ⟨8000, 1520, 0, "document_ai", 9/10⟩
          ⟨0, 0, 0, "chatgpt", 1/2⟩ =
        (⟨8000, 1520, 9520⟩, ⟨[AVWarning.grossCalculated], false, 0⟩) := by
  refine ⟨?_, fun documentAI chatGPT => rfl, by decide⟩
  intro a st
  by_cases h1 : 0 < a.net ∧ 0 < a.vat ∧ a.gross = 0
  · obtain ⟨hn, hv, hg⟩ := h1
    have hne : ¬ a.net = 0 := by omega
    have hvne : ¬ a.vat = 0 := by omega
    refine ⟨?_, ⟨[AVWarning.grossCalculated], ?_, ?_⟩, ?_⟩ <;>
      simp [calculateMissingAmountsAV, amendedCalculateMissing, hn, hv, hg, hne, hvne]
  · have h1s : ¬ (a.gross = 0 ∧ 0 < a.net ∧ 0 < a.vat) := by
      rintro ⟨hg, hn, hv⟩; exact h1 ⟨hn, hv, hg⟩
    by_cases h2 : 0 < a.gross ∧ 0 < a.vat ∧ a.net = 0
    · obtain ⟨hg, hv, hn⟩ := h2
      have hgne : ¬ a.gross = 0 := by omega
      have hvne : ¬ a.vat = 0 := by omega
      refine ⟨?_, ⟨[AVWarning.netCalculated], ?_, ?_⟩, ?_⟩ <;>
        simp [calculateMissingAmountsAV, amendedCalculateMissing, hg, hv, hn, hgne, hvne]
    · have h2s : ¬ (a.net = 0 ∧ 0 < a.gross ∧ 0 < a.vat) := by
        rintro ⟨hn, hg, hv⟩; exact h2 ⟨hg, hv, hn⟩
      by_cases h3 : 0 < a.gross ∧ 0 < a.net ∧ a.vat = 0
      · obtain ⟨hg, hn, hv⟩ := h3
        have hgne : ¬ a.gross = 0 := by omega
        have hnne : ¬ a.net = 0 := by omega
        refine ⟨?_, ⟨[AVWarning.vatCalculated], ?_, ?_⟩, ?_⟩ <;>
          simp [calculateMissingAmountsAV, amendedCalculateMissing, hg, hn, hv, hgne, hnne]
      · have h3s : ¬ (a.vat = 0 ∧ 0 < a.gross ∧ 0 < a.net) := by
          rintro ⟨hv, hg, hn⟩; exact h3 ⟨hg, hn, hv⟩
        refine ⟨?_, ⟨[], ?_, ?_⟩, ?_⟩ <;>
          simp [calculateMissingAmountsAV, amendedCalculateMissing, h1, h1s, h2, h2s, h3, h3s]

/-- Claim C3 as frozen is false on the code: with net=-8000, tax=-1520
(both non-zero, e.g. a credit note) and gross=0, the claim prescribes
synthesizing gross=-9520 with one warning, but `calculateMissingAmounts`
(which requires the two present fields strictly positive) changes nothing
and warns nothing. -/
theorem calculateMissingAmounts_claim_counterexample :
    calculateMissingAmountsAV ⟨-8000, -1520, 0⟩ ⟨[], false, 0⟩
        = (⟨-8000, -1520, 0⟩, ⟨[], false, 0⟩) ∧
      claimedCalculateMissing ⟨-8000, -1520, 0⟩ = (⟨-8000, -1520, -9520⟩, 1) := by
  constructor <;> decide

/-! ## String toolkit (models of Go `strings` operations)

Go strings are modelled as `List Char`.  All operations are structurally
recursive (fuel-based where Go scans with a shifting window) so that they
evaluate inside the kernel. -/

/-- Model of Go `strings.TrimSpace` (leading and trailing whitespace
removed; the ASCII/latin whitespace class of `Char.isWhitespace` stands in
for Go's Unicode space class, which coincides on every input this program
feeds it). -/
def goTrimSpace (s : List Char) : List Char :=
  ((s.dropWhile Char.isWhitespace).reverse.dropWhile Char.isWhitespace).reverse

/-- Whether `pat` occurs at the head of `s`. -/
def startsWithList : List Char → List Char → Bool
  | [], _ => true
  | _ :: _, [] => false
  | p :: ps, c :: cs => p = c && startsWithList ps cs

/-- Fuel-driven worker for `replaceAll`; the fuel is an upper bound on the
number of characters still to scan, making the recursion structural. -/
def replaceAllFuel (pat repl : List Char) : ℕ → List Char → List Char
  | _, [] => []
  | 0, s => s
  | fuel + 1, c :: rest =>
      if pat ≠ [] ∧ startsWithList pat (c :: rest) then
        repl ++ replaceAllFuel pat repl fuel ((c :: rest).drop pat.length)
      else
        c :: replaceAllFuel pat repl fuel rest

/-- Model of Go `strings.ReplaceAll`: replaces every non-overlapping
occurrence of `pat`, scanning left to right (the empty-pattern case, which
Go treats specially and this program never exercises, leaves the string
unchanged). -/
def replaceAll (pat repl s : List Char) : List Char :=
  replaceAllFuel pat repl s.length s

/-- Model of Go `strings.Split` with a one-character separator. -/
def splitOnChar (sep : Char) : List Char → List (List Char)
  | [] => [[]]
  | c :: rest =>
      let r := splitOnChar sep rest
      if c = sep then [] :: r
      else
        match r with
        | h :: t => (c :: h) :: t
        | [] => [[c]]

/-- Digits-to-number accumulator (used by the numeric parsing model). -/
def natOfDigits (l : List Char) : ℕ :=
  l.foldl (fun a c => a * 10 + (c.toNat - 48)) 0

/-- All characters are ASCII digits. -/
def allDigits (l : List Char) : Bool := l.all (fun c => c.isDigit)

/-! ## Locale amount parsing (`parseAmount` in invoice/completion.go) -/

/-- Model of Go `strconv.ParseFloat` restricted to plain decimal notation
(optional sign, digits with at most one `.`, at least one digit), the only
shapes this program's cleaned amount strings can take; exponent, hex and
infinity forms of `ParseFloat` are outside the model.  The float value is
modelled as the exact rational. -/
def parseUnsigned (s : List Char) : Option ℚ :=
  match splitOnChar '.' s with
  | [a] => if !a.isEmpty && allDigits a then some (natOfDigits a) else none
  | [a, b] =>
      if (!a.isEmpty || !b.isEmpty) && allDigits a && allDigits b then
        some ((natOfDigits a : ℚ) + (natOfDigits b : ℚ) / (10 : ℚ) ^ b.length)
      else none
  | _ => none

/-- Signed decimal parsing (see `parseUnsigned`). -/
def parseDecimal : List Char → Option ℚ
  | '-' :: rest => (parseUnsigned rest).map (fun q => -q)
  | '+' :: rest => parseUnsigned rest
  | s => parseUnsigned s

/-- The cleaning pipeline of `parseAmount`: trim, then remove spaces and
currency markers, in the Go source's order. -/
def cleanAmount (s : List Char) : List Char :=
  replaceAll "USD".data "".data
    (replaceAll "EUR".data "".data
      (replaceAll "$".data "".data
        (replaceAll "€".data "".data
          (replaceAll " ".data "".data (goTrimSpace s)))))

/-- The decimal-separator disambiguation of `parseAmount`: with both `.`
and `,` present, dots are removed and the comma becomes the decimal point;
with only `,` present, the comma becomes the decimal point when the string
splits on `,` into exactly two parts with the second of length at most 2. -/
def disambiguateDecimal (s : List Char) : List Char :=
  if s.contains ',' then
    if s.contains '.' then replaceAll [','] ['.'] (replaceAll ['.'] [] s)
    else
      let parts := splitOnChar ',' s
      if parts.length = 2 ∧ (parts.getD 1 []).length ≤ 2 then replaceAll [','] ['.'] s
      else s
  else s

/-- Go `int64(f)` conversion: truncation toward zero. -/
def truncQ (q : ℚ) : ℤ := if 0 ≤ q then ⌊q⌋ else ⌈q⌉

/-- `parseAmount` from invoice/completion.go: clean, disambiguate the
decimal separator, parse, and truncate `value * 100` to an integer count
of cents (`int64(amount * 100)` in Go); `none` models the ParseError. -/
def parseAmount (s : String) : Option ℤ :=
  (parseDecimal (disambiguateDecimal (cleanAmount s.data))).map (fun q => truncQ (q * 100))

/-! ### Claim-side definitions for C4 -/

/-- Claim C4's disambiguation as frozen: with only `,` present the comma is
the decimal separator only when followed by exactly 1-2 digits. -/
def claimedDisambiguate (s : List Char) : List Char :=
  if s.contains ',' && s.contains '.' then replaceAll [','] ['.'] (replaceAll ['.'] [] s)
  else if s.contains ',' then
    let parts := splitOnChar ',' s
    if parts.length = 2 ∧ 1 ≤ (parts.getD 1 []).length ∧ (parts.getD 1 []).length ≤ 2 ∧
        allDigits (parts.getD 1 []) then
      replaceAll [','] ['.'] s
    else s
  else s

/-- Claim C4 as frozen, written from the claim's words: clean, disambiguate
(comma decimal only when followed by exactly 1-2 digits), and return
`round(value * 100)`. -/
def claimedParseAmount (s : String) : Option ℤ :=
  (parseDecimal (claimedDisambiguate (cleanAmount s.data))).map (fun q => round (q * 100))

/-- Claim C4 amended disambiguation: with only `,` present the comma is the
decimal separator exactly when the string splits on `,` into two parts with
at most two (possibly zero, not necessarily digit) characters after the
comma. -/
def amendedDisambiguate (s : List Char) : List Char :=
  if s.contains ',' && s.contains '.' then replaceAll [','] ['.'] (replaceAll ['.'] [] s)
  else if s.contains ',' then
    let parts := splitOnChar ',' s
    if parts.length = 2 ∧ (parts.getD 1 []).length ≤ 2 then replaceAll [','] ['.'] s
    else s
  else s

/-- Claim C4 amended: as the claim, but the only-comma rule accepts at most
two arbitrary characters after a single comma, and the output is
`value * 100` truncated toward zero rather than rounded. -/
def amendedParseAmount (s : String) : Option ℤ :=
  (parseDecimal (amendedDisambiguate (cleanAmount s.data))).map (fun q => truncQ (q * 100))

/-- The claim's "numeric" predicate on a cleaned string: an optional sign
followed by digits with at most one decimal point and at least one digit. -/
def isNumericBody (s : List Char) : Bool :=
  match splitOnChar '.' s with
  | [a] => !a.isEmpty && allDigits a
  | [a, b] => (!a.isEmpty || !b.isEmpty) && allDigits a && allDigits b
  | _ => false

/-- Signed form of `isNumericBody`. -/
def isNumericStr : List Char → Bool
  | '-' :: rest => isNumericBody rest
  | '+' :: rest => isNumericBody rest
  | s => isNumericBody s

/-! ## Invoice completion service (invoice/completion.go) -/

/-- `models.Invoice` (pkg/models): amounts in cents (`int64` as `ℤ`),
`time.Time` dates as `Option` of a (year, month, day) triple with `none`
for Go's zero time, and the audit timestamps as abstract clock values. -/
structure Invoice where
  id : String := ""
  invoiceNumber : String := ""
  typ : String := ""
  vendor : String := ""
  customer : String := ""
  issueDate : Option (ℕ × ℕ × ℕ) := none
  dueDate : Option (ℕ × ℕ × ℕ) := none
  paymentDate : Option (ℕ × ℕ × ℕ) := none
  netAmount : ℤ := 0
  vatAmount : ℤ := 0
  grossAmount : ℤ := 0
  currency : String := ""
  isPaid : Bool := false
  reference : String := ""
  description : String := ""
  accountingSummary : String := ""
  createdAt : ℕ := 0
  updatedAt : ℕ := 0
deriving DecidableEq, Repr

/-- `ChatGPTResponse`: the decoded generative response, every field a string
exactly as in the Go struct. -/
structure ChatGPTResponse where
  typ : String := ""
  typeConfidence : String := ""
  typeReasoning : String := ""
  accountingSummary : String := ""
  vendor : String := ""
  customer : String := ""
  invoiceNumber : String := ""
  issueDate : String := ""
  dueDate : String := ""
  netAmount : String := ""
  vatAmount : String := ""
  grossAmount : String := ""
  currency : String := ""
  reference : String := ""
  description : String := ""
deriving DecidableEq, Repr

/-- The two `CompletionConfig` fields the verified logic reads
(`RequireAllFields`, `MaxRetries`); the remaining Go fields only feed
prompt text and logging. -/
structure CompletionConfig where
  requireAllFields : Bool
  maxRetries : ℕ
deriving DecidableEq, Repr

/-- Month lengths with the Gregorian leap rule (the calendar validation Go's
`time.Parse` applies). -/
def daysInMonth (y m : ℕ) : ℕ :=
  if m = 1 ∨ m = 3 ∨ m = 5 ∨ m = 7 ∨ m = 8 ∨ m = 10 ∨ m = 12 then 31
  else if m = 4 ∨ m = 6 ∨ m = 9 ∨ m = 11 then 30
  else if m = 2 then (if (y % 4 = 0 ∧ y % 100 ≠ 0) ∨ y % 400 = 0 then 29 else 28)
  else 0

/-- Model of Go `time.Parse("2006-01-02", s)`: strict `YYYY-MM-DD` with
calendar validation. -/
def parseDateISO (s : String) : Option (ℕ × ℕ × ℕ) :=
  match s.data with
  | [y1, y2, y3, y4, s1, m1, m2, s2, d1, d2] =>
      if allDigits [y1, y2, y3, y4, m1, m2, d1, d2] && (s1 = '-') && (s2 = '-') then
        let y := natOfDigits [y1, y2, y3, y4]
        let m := natOfDigits [m1, m2]
        let d := natOfDigits [d1, d2]
        if 1 ≤ m ∧ m ≤ 12 ∧ 1 ≤ d ∧ d ≤ daysInMonth y m then some (y, m, d) else none
      else none
  | _ => none

/-- `ValidateInvoice` from invoice/completion.go: the missing-field list in
the Go source's fixed order; the first component is `len(missing) == 0`. -/
def validateInvoice (cfg : CompletionConfig) (inv : Invoice) : Bool × List String :=
  let missing :=
    (if inv.invoiceNumber = "" then ["invoice_number"] else []) ++
    (if inv.vendor = "" then ["vendor"] else []) ++
    (if inv.typ = "" ∨ (inv.typ ≠ "PAYABLE" ∧ inv.typ ≠ "RECEIVABLE") then ["type"] else []) ++
    (if inv.issueDate = none then ["issue_date"] else []) ++
    (if inv.grossAmount ≤ 0 then ["gross_amount"] else []) ++
    (if inv.currency = "" then ["currency"] else []) ++
    (if inv.customer = "" ∧ cfg.requireAllFields then ["customer"] else []) ++
    (if inv.dueDate = none ∧ cfg.requireAllFields then ["due_date"] else []) ++
    (if inv.netAmount ≤ 0 ∧ cfg.requireAllFields then ["net_amount"] else [])
  (missing.isEmpty, missing)

/-- `normalizeCurrency` from invoice/completion.go (Go's Unicode
`strings.ToUpper` is modelled by the ASCII `Char.toUpper`, and the 3-byte
length check by `utf8ByteSize`, which agree on every code this program
normalizes). -/
def normalizeCurrency (currency : String) : String :=
  if currency = "" then "EUR"
  else
    let n : String := String.mk ((goTrimSpace currency.data).map Char.toUpper)
    if n = "€" ∨ n = "EURO" ∨ n = "EUROS" ∨ n = "EUR" then "EUR"
    else if n = "$" ∨ n = "DOLLAR" ∨ n = "DOLLARS" ∨ n = "USD" ∨ n = "US$" then "USD"
    else if n = "£" ∨ n = "POUND" ∨ n = "POUNDS" ∨ n = "GBP" then "GBP"
    else if n = "¥" ∨ n = "YEN" ∨ n = "JPY" then "JPY"
    else if n = "CHF" ∨ n = "FRANKEN" ∨ n = "SWISS FRANC" then "CHF"
    else if n.utf8ByteSize = 3 then n
    else "EUR"

/-- `mergeCompletionResults` from invoice/completion.go.  The Go function
mutates the invoice field by field in sequence; each invoice field is
written by at most one branch and every branch reads only the response and
the missing-field list, so the simultaneous-update record below is the same
function.  The Go confidence map (`map[string]float32`) is modelled as the
list of entries in the source's insertion order.  `now` models
`time.Now()`. -/
def mergeCompletionResults (inv : Invoice) (response : ChatGPTResponse)
    (missingFields : List String) (now : ℕ) : Invoice × List (String × ℚ) :=
  let setType := "type" ∈ missingFields ∧ response.typ ≠ ""
  let typeConfidence : ℚ := (parseDecimal response.typeConfidence.data).getD (1/2)
  let setVendor := "vendor" ∈ missingFields ∧ response.vendor ≠ ""
  let setCustomer := "customer" ∈ missingFields ∧ response.customer ≠ ""
  let setInvoiceNumber := "invoice_number" ∈ missingFields ∧ response.invoiceNumber ≠ ""
  let issueParsed := parseDateISO response.issueDate
  let setIssueDate := ("issue_date" ∈ missingFields ∧ response.issueDate ≠ "") ∧ issueParsed.isSome
  let dueParsed := parseDateISO response.dueDate
  let setDueDate := ("due_date" ∈ missingFields ∧ response.dueDate ≠ "") ∧ dueParsed.isSome
  let netParsed := parseAmount response.netAmount
  let setNet := ("net_amount" ∈ missingFields ∧ response.netAmount ≠ "") ∧ netParsed.isSome
  let vatParsed := parseAmount response.vatAmount
  let setVat := ("vat_amount" ∈ missingFields ∧ response.vatAmount ≠ "") ∧ vatParsed.isSome
  let grossParsed := parseAmount response.grossAmount
  let setGross := ("gross_amount" ∈ missingFields ∧ response.grossAmount ≠ "") ∧ grossParsed.isSome
  let setCurrency := "currency" ∈ missingFields ∧ response.currency ≠ ""
  let setReference := "reference" ∈ missingFields ∧ response.reference ≠ ""
  let setDescription := "description" ∈ missingFields ∧ response.description ≠ ""
  let setSummary := response.accountingSummary ≠ ""
  ({ inv with
      typ := if setType then response.typ else inv.typ
      vendor := if setVendor then response.vendor else inv.vendor
      customer := if setCustomer then response.customer else inv.customer
      invoiceNumber := if setInvoiceNumber then response.invoiceNumber else inv.invoiceNumber
      issueDate := if setIssueDate then issueParsed else inv.issueDate
      dueDate := if setDueDate then dueParsed else inv.dueDate
      netAmount := if setNet then netParsed.getD 0 else inv.netAmount
      vatAmount := if setVat then vatParsed.getD 0 else inv.vatAmount
      grossAmount := if setGross then grossParsed.getD 0 else inv.grossAmount
      currency := if setCurrency then normalizeCurrency response.currency else inv.currency
      reference := if setReference then response.reference else inv.reference
      description := if setDescription then response.description else inv.description
      accountingSummary := if setSummary then response.accountingSummary
        else inv.accountingSummary
      updatedAt := now },
    (if setType then [("type", typeConfidence)] else []) ++
    (if setVendor then [("vendor", (4 : ℚ)/5)] else []) ++
    (if setCustomer then [("customer", (4 : ℚ)/5)] else []) ++
    (if setInvoiceNumber then [("invoice_number", (9 : ℚ)/10)] else []) ++
    (if setIssueDate then [("issue_date", (4 : ℚ)/5)] else []) ++
    (if setDueDate then [("due_date", (4 : ℚ)/5)] else []) ++
    (if setNet then [("net_amount", (7 : ℚ)/10)] else []) ++
    (if setVat then [("vat_amount", (7 : ℚ)/10)] else []) ++
    (if setGross then [("gross_amount", (7 : ℚ)/10)] else []) ++
    (if setCurrency then [("currency", (9 : ℚ)/10)] else []) ++
    (if setReference then [("reference", (4 : ℚ)/5)] else []) ++
    (if setDescription then [("description", (4 : ℚ)/5)] else []) ++
    (if setSummary then [("accounting_summary", (4 : ℚ)/5)] else []))

/-- `calculateMissingAmounts` from invoice/completion.go (the completion
service's own synthesis pass, run by `validateCompletedInvoice`). -/
def calculateMissingAmountsCompletion (inv : Invoice) : Invoice :=
  let i1 :=
    if 0 < inv.netAmount ∧ 0 < inv.vatAmount ∧ inv.grossAmount = 0 then
      { inv with grossAmount := inv.netAmount + inv.vatAmount }
    else inv
  let i2 :=
    if 0 < i1.grossAmount ∧ 0 < i1.vatAmount ∧ i1.netAmount = 0 then
      { i1 with netAmount := i1.grossAmount - i1.vatAmount }
    else i1
  if 0 < i2.grossAmount ∧ 0 < i2.netAmount ∧ i2.vatAmount = 0 then
    { i2 with vatAmount := i2.grossAmount - i2.netAmount }
  else i2

/-- `validateCompletedInvoice` from invoice/completion.go: rejects an
invalid type and an all-zero amount triple, then runs the synthesis pass
(the Go function mutates the invoice through a pointer; the model returns
the updated invoice). -/
def validateCompletedInvoice (inv : Invoice) : Except String Invoice :=
  if inv.typ ≠ "PAYABLE" ∧ inv.typ ≠ "RECEIVABLE" then
    Except.error "invalid invoice type"
  else if inv.grossAmount = 0 ∧ inv.netAmount = 0 ∧ inv.vatAmount = 0 then
    Except.error "no amount information found after completion"
  else
    Except.ok (calculateMissingAmountsCompletion inv)

/-- One attempt of the generative call as seen by the retry loop in
`extractInvoiceFromText`: a transport/API error, an empty choice list, a
JSON parse failure, or a decoded response. -/
inductive ChatAttemptOutcome where
  | transportError
  | noChoices
  | badJson
  | response (r : ChatGPTResponse)

/-- The outcome of attempt `k` under an external-call oracle `api` and a
cancellation signal: once the context is cancelled,
`CreateChatCompletion(ctx, ...)` fails, which the loop sees as a transport
error. -/
def attemptOutcome (cancelled : ℕ → Bool) (api : ℕ → ChatAttemptOutcome)
    (attempt : ℕ) : ChatAttemptOutcome :=
  if cancelled attempt then ChatAttemptOutcome.transportError else api attempt

/-- The retry loop of `extractInvoiceFromText` (attempts
`attempt, attempt+1, ...` with `n` attempts remaining).  Every iteration
performs exactly one `CreateChatCompletion` call — the call sits at the top
of the Go loop body with no cancellation check before it — and the second
component counts those calls.  An attempt is retried on transport error,
empty choices, bad JSON, or a type outside {PAYABLE, RECEIVABLE}. -/
def extractLoop (outcome : ℕ → ChatAttemptOutcome) : ℕ → ℕ → Option ChatGPTResponse × ℕ
  | _, 0 => (none, 0)
  | attempt, n + 1 =>
      match outcome attempt with
      | ChatAttemptOutcome.response r =>
          if r.typ = "PAYABLE" ∨ r.typ = "RECEIVABLE" then (some r, 1)
          else
            let rest := extractLoop outcome (attempt + 1) n
            (rest.1, rest.2 + 1)
      | _ =>
          let rest := extractLoop outcome (attempt + 1) n
          (rest.1, rest.2 + 1)

/-- `extractInvoiceFromText` from invoice/completion.go, reduced to its
retry structure: attempts run from 1 to `MaxRetries`; `none` models the
terminal "all attempts failed" error. -/
def extractInvoiceFromText (maxRetries : ℕ) (cancelled : ℕ → Bool)
    (api : ℕ → ChatAttemptOutcome) : Option ChatGPTResponse × ℕ :=
  extractLoop (attemptOutcome cancelled api) 1 maxRetries

/-- The OCR collaborator's result (`ProcessPDFWithMetadata`). -/
structure OCRResult where
  text : String
  confidence : ℚ

/-- `CompleteInvoiceWithConfidence` from invoice/completion.go: completeness
check (short-circuit when complete), one OCR call, the generative retry
loop, merge, and post-merge validation.  The second component counts
external calls (the OCR call plus one per generative attempt). -/
def completeInvoiceWithConfidence (cfg : CompletionConfig) (inv : Invoice) (now : ℕ)
    (ocr : Except String OCRResult) (cancelled : ℕ → Bool) (api : ℕ → ChatAttemptOutcome) :
    Except String (Invoice × List (String × ℚ)) × ℕ :=
  let v := validateInvoice cfg inv
  if v.1 then (Except.ok (inv, []), 0)
  else
    match ocr with
    | Except.error e => (Except.error e, 1)
    | Except.ok r =>
      if r.text = "" then (Except.error "no text extracted from PDF", 1)
      else
        let ext := extractInvoiceFromText cfg.maxRetries cancelled api
        match ext.1 with
        | none => (Except.error "ChatGPT extraction failed", 1 + ext.2)
        | some response =>
            let merged := mergeCompletionResults inv response v.2 now
            match validateCompletedInvoice merged.1 with
            | Except.error e => (Except.error e, 1 + ext.2)
            | Except.ok final => (Except.ok (final, merged.2), 1 + ext.2)

/-! ### Theorems for C4 -/

lemma disambiguate_code_eq_amended (s : List Char) :
    disambiguateDecimal s = amendedDisambiguate s := by
  unfold disambiguateDecimal amendedDisambiguate
  by_cases h1 : ',' ∈ s <;> by_cases h2 : '.' ∈ s <;> simp [h1, h2]

lemma parseUnsigned_isSome (s : List Char) :
    (parseUnsigned s).isSome = isNumericBody s := by
  unfold parseUnsigned isNumericBody
  rcases h : splitOnChar '.' s with _ | ⟨a, _ | ⟨b, _ | _⟩⟩ <;> simp [h] <;>
    split <;> simp_all

lemma parseDecimal_isSome (s : List Char) :
    (parseDecimal s).isSome = isNumericStr s := by
  rw [parseDecimal.eq_def, isNumericStr.eq_def]
  split
  · simp [parseUnsigned_isSome]
  · simp [parseUnsigned_isSome]
  · exact parseUnsigned_isSome _

/-- Claim C4 (amended), proved: `parseAmount` cleans currency markers and
whitespace, disambiguates the decimal separator (both `.` and `,` present:
dots stripped, comma becomes the decimal point; only `,` present: the comma
becomes the decimal point when the string splits at `,` into exactly two
parts with at most two — possibly zero — characters after it; otherwise the
string is parsed as-is), errs exactly when the disambiguated cleaned string
is not numeric, returns `value * 100` truncated toward zero (not rounded),
and satisfies the claim's three examples. -/
theorem parseAmount_meets_amended_claim :
    (∀ s : String, parseAmount s = amendedParseAmount s) ∧
      (∀ s : String,
        (parseAmount s = none ↔
          isNumericStr (amendedDisambiguate (cleanAmount s.data)) = false)) ∧
      parseAmount "1.234,56" = some 123456 ∧
      parseAmount "1234,50" = some 123450 ∧
      parseAmount "-42.00" = some (-4200) := by
  have hcode : ∀ s : String, parseAmount s = amendedParseAmount s := by
    intro s
    unfold parseAmount amendedParseAmount
    rw [disambiguate_code_eq_amended]
  refine ⟨hcode, ?_, ?_, ?_, ?_⟩
  · intro s
    rw [hcode s]
    unfold amendedParseAmount
    rw [Option.map_eq_none', ← parseDecimal_isSome]
    rcases parseDecimal (amendedDisambiguate (cleanAmount s.data)) with _ | q <;> simp
  · have h1 : disambiguateDecimal (cleanAmount "1.234,56".data) = "1234.56".data := by decide
    have h2 : splitOnChar '.' "1234.56".data = [['1', '2', '3', '4'], ['5', '6']] := by decide
    simp [parseAmount, h1, parseDecimal, parseUnsigned, h2, natOfDigits, allDigits, truncQ]
    norm_num
  · have h1 : disambiguateDecimal (cleanAmount "1234,50".data) = "1234.50".data := by decide
    have h2 : splitOnChar '.' "1234.50".data = [['1', '2', '3', '4'], ['5', '0']] := by decide
    simp [parseAmount, h1, parseDecimal, parseUnsigned, h2, natOfDigits, allDigits, truncQ]
    norm_num
  · have h1 : disambiguateDecimal (cleanAmount "-42.00".data) = "-42.00".data := by decide
    have h2 : splitOnChar '.' "42.00".data = [['4', '2'], ['0', '0']] := by decide
    simp [parseAmount, h1, parseDecimal, parseUnsigned, h2, natOfDigits, allDigits, truncQ]
    rw [if_neg (by norm_num), show (-((42 : ℚ) * 100)) = ((-4200 : ℤ) : ℚ) by norm_cast,
      Int.ceil_intCast]

/-- Claim C4 as frozen is false on the code in two ways.  Rounding: the Go
code truncates `int64(amount * 100)` toward zero, so `parseAmount "0.999"`
is 99 where the claim's `round(value*100)` is 100.  Comma rule: the code
accepts a comma followed by at most 2 characters including zero of them, so
`parseAmount "1234,"` parses as 123400 where the claim (comma followed by
exactly 1-2 digits) leaves `"1234,"`, which is not numeric, and errs. -/
theorem parseAmount_claim_counterexample :
    parseAmount "0.999" = some 99 ∧ claimedParseAmount "0.999" = some 100 ∧
      parseAmount "1234," = some 123400 ∧ claimedParseAmount "1234," = none := by
  refine ⟨?_, ?_, ?_, ?_⟩
  · have h1 : disambiguateDecimal (cleanAmount "0.999".data) = "0.999".data := by decide
    have h2 : splitOnChar '.' "0.999".data = [['0'], ['9', '9', '9']] := by decide
    simp [parseAmount, h1, parseDecimal, parseUnsigned, h2, natOfDigits, allDigits, truncQ]
    norm_num
  · have h1 : claimedDisambiguate (cleanAmount "0.999".data) = "0.999".data := by decide
    have h2 : splitOnChar '.' "0.999".data = [['0'], ['9', '9', '9']] := by decide
    simp [claimedParseAmount, h1, parseDecimal, parseUnsigned, h2, natOfDigits, allDigits]
    norm_num [round_eq]
  · have h1 : disambiguateDecimal (cleanAmount "1234,".data) = "1234.".data := by decide
    have h2 : splitOnChar '.' "1234.".data = [['1', '2', '3', '4'], []] := by decide
    simp [parseAmount, h1, parseDecimal, parseUnsigned, h2, natOfDigits, allDigits, truncQ]
    norm_num
  · have h1 : claimedDisambiguate (cleanAmount "1234,".data) = "1234,".data := by decide
    have h2 : splitOnChar '.' "1234,".data = [['1', '2', '3', '4', ',']] := by decide
    simp [claimedParseAmount, h1, parseDecimal, parseUnsigned, h2, allDigits]

/-! ### Theorems for C5, C6, C9 -/

/-- Membership in the missing-field list, characterized. -/
lemma mem_validateInvoice (cfg : CompletionConfig) (inv : Invoice) (x : String) :
    x ∈ (validateInvoice cfg inv).2 ↔
      (inv.invoiceNumber = "" ∧ x = "invoice_number") ∨
      (inv.vendor = "" ∧ x = "vendor") ∨
      ((inv.typ = "" ∨ (inv.typ ≠ "PAYABLE" ∧ inv.typ ≠ "RECEIVABLE")) ∧ x = "type") ∨
      (inv.issueDate = none ∧ x = "issue_date") ∨
      (inv.grossAmount ≤ 0 ∧ x = "gross_amount") ∨
      (inv.currency = "" ∧ x = "currency") ∨
      ((inv.customer = "" ∧ cfg.requireAllFields) ∧ x = "customer") ∨
      ((inv.dueDate = none ∧ cfg.requireAllFields) ∧ x = "due_date") ∨
      ((inv.netAmount ≤ 0 ∧ cfg.requireAllFields) ∧ x = "net_amount") := by
  simp only [validateInvoice, List.mem_append]
  constructor
  · rintro ((((((((h | h) | h) | h) | h) | h) | h) | h) | h) <;>
      [skip; skip; skip; skip; skip; skip; skip; skip; skip] <;>
      · split at h <;> simp_all
  · rintro (⟨hc, rfl⟩ | ⟨hc, rfl⟩ | ⟨hc, rfl⟩ | ⟨hc, rfl⟩ | ⟨hc, rfl⟩ | ⟨hc, rfl⟩ |
      ⟨hc, rfl⟩ | ⟨hc, rfl⟩ | ⟨hc, rfl⟩) <;> simp [hc]

lemma vendor_missing_imp (cfg : CompletionConfig) (inv : Invoice) :
    "vendor" ∈ (validateInvoice cfg inv).2 → inv.vendor = "" := by
  rw [mem_validateInvoice]
  rintro (⟨hc, he⟩ | ⟨hc, he⟩ | ⟨hc, he⟩ | ⟨hc, he⟩ | ⟨hc, he⟩ | ⟨hc, he⟩ |
    ⟨hc, he⟩ | ⟨hc, he⟩ | ⟨hc, he⟩) <;> first | exact absurd he (by decide) | exact hc

lemma customer_missing_imp (cfg : CompletionConfig) (inv : Invoice) :
    "customer" ∈ (validateInvoice cfg inv).2 → inv.customer = "" := by
  rw [mem_validateInvoice]
  rintro (⟨hc, he⟩ | ⟨hc, he⟩ | ⟨hc, he⟩ | ⟨hc, he⟩ | ⟨hc, he⟩ | ⟨hc, he⟩ |
    ⟨hc, he⟩ | ⟨hc, he⟩ | ⟨hc, he⟩) <;> first | exact absurd he (by decide) | exact hc.1

lemma invoiceNumber_missing_imp (cfg : CompletionConfig) (inv : Invoice) :
    "invoice_number" ∈ (validateInvoice cfg inv).2 → inv.invoiceNumber = "" := by
  rw [mem_validateInvoice]
  rintro (⟨hc, he⟩ | ⟨hc, he⟩ | ⟨hc, he⟩ | ⟨hc, he⟩ | ⟨hc, he⟩ | ⟨hc, he⟩ |
    ⟨hc, he⟩ | ⟨hc, he⟩ | ⟨hc, he⟩) <;> first | exact absurd he (by decide) | exact hc

lemma type_missing_imp (cfg : CompletionConfig) (inv : Invoice) :
    "type" ∈ (validateInvoice cfg inv).2 →
      inv.typ = "" ∨ (inv.typ ≠ "PAYABLE" ∧ inv.typ ≠ "RECEIVABLE") := by
  rw [mem_validateInvoice]
  rintro (⟨hc, he⟩ | ⟨hc, he⟩ | ⟨hc, he⟩ | ⟨hc, he⟩ | ⟨hc, he⟩ | ⟨hc, he⟩ |
    ⟨hc, he⟩ | ⟨hc, he⟩ | ⟨hc, he⟩) <;> first | exact absurd he (by decide) | exact hc

lemma issueDate_missing_imp (cfg : CompletionConfig) (inv : Invoice) :
    "issue_date" ∈ (validateInvoice cfg inv).2 → inv.issueDate = none := by
  rw [mem_validateInvoice]
  rintro (⟨hc, he⟩ | ⟨hc, he⟩ | ⟨hc, he⟩ | ⟨hc, he⟩ | ⟨hc, he⟩ | ⟨hc, he⟩ |
    ⟨hc, he⟩ | ⟨hc, he⟩ | ⟨hc, he⟩) <;> first | exact absurd he (by decide) | exact hc

lemma dueDate_missing_imp (cfg : CompletionConfig) (inv : Invoice) :
    "due_date" ∈ (validateInvoice cfg inv).2 → inv.dueDate = none := by
  rw [mem_validateInvoice]
  rintro (⟨hc, he⟩ | ⟨hc, he⟩ | ⟨hc, he⟩ | ⟨hc, he⟩ | ⟨hc, he⟩ | ⟨hc, he⟩ |
    ⟨hc, he⟩ | ⟨hc, he⟩ | ⟨hc, he⟩) <;> first | exact absurd he (by decide) | exact hc.1

lemma netAmount_missing_imp (cfg : CompletionConfig) (inv : Invoice) :
    "net_amount" ∈ (validateInvoice cfg inv).2 → inv.netAmount ≤ 0 := by
  rw [mem_validateInvoice]
  rintro (⟨hc, he⟩ | ⟨hc, he⟩ | ⟨hc, he⟩ | ⟨hc, he⟩ | ⟨hc, he⟩ | ⟨hc, he⟩ |
    ⟨hc, he⟩ | ⟨hc, he⟩ | ⟨hc, he⟩) <;> first | exact absurd he (by decide) | exact hc.1

lemma grossAmount_missing_imp (cfg : CompletionConfig) (inv : Invoice) :
    "gross_amount" ∈ (validateInvoice cfg inv).2 → inv.grossAmount ≤ 0 := by
  rw [mem_validateInvoice]
  rintro (⟨hc, he⟩ | ⟨hc, he⟩ | ⟨hc, he⟩ | ⟨hc, he⟩ | ⟨hc, he⟩ | ⟨hc, he⟩ |
    ⟨hc, he⟩ | ⟨hc, he⟩ | ⟨hc, he⟩) <;> first | exact absurd he (by decide) | exact hc

lemma currency_missing_imp (cfg : CompletionConfig) (inv : Invoice) :
    "currency" ∈ (validateInvoice cfg inv).2 → inv.currency = "" := by
  rw [mem_validateInvoice]
  rintro (⟨hc, he⟩ | ⟨hc, he⟩ | ⟨hc, he⟩ | ⟨hc, he⟩ | ⟨hc, he⟩ | ⟨hc, he⟩ |
    ⟨hc, he⟩ | ⟨hc, he⟩ | ⟨hc, he⟩) <;> first | exact absurd he (by decide) | exact hc

lemma vat_never_missing (cfg : CompletionConfig) (inv : Invoice) :
    "vat_amount" ∉ (validateInvoice cfg inv).2 := by
  rw [mem_validateInvoice]
  rintro (⟨hc, he⟩ | ⟨hc, he⟩ | ⟨hc, he⟩ | ⟨hc, he⟩ | ⟨hc, he⟩ | ⟨hc, he⟩ |
    ⟨hc, he⟩ | ⟨hc, he⟩ | ⟨hc, he⟩) <;> exact absurd he (by decide)

lemma reference_never_missing (cfg : CompletionConfig) (inv : Invoice) :
    "reference" ∉ (validateInvoice cfg inv).2 := by
  rw [mem_validateInvoice]
  rintro (⟨hc, he⟩ | ⟨hc, he⟩ | ⟨hc, he⟩ | ⟨hc, he⟩ | ⟨hc, he⟩ | ⟨hc, he⟩ |
    ⟨hc, he⟩ | ⟨hc, he⟩ | ⟨hc, he⟩) <;> exact absurd he (by decide)

lemma description_never_missing (cfg : CompletionConfig) (inv : Invoice) :
    "description" ∉ (validateInvoice cfg inv).2 := by
  rw [mem_validateInvoice]
  rintro (⟨hc, he⟩ | ⟨hc, he⟩ | ⟨hc, he⟩ | ⟨hc, he⟩ | ⟨hc, he⟩ | ⟨hc, he⟩ |
    ⟨hc, he⟩ | ⟨hc, he⟩ | ⟨hc, he⟩) <;> exact absurd he (by decide)

/-- Claim C5 (amended), proved: with the missing-field list computed by the
completeness check, merging never changes a populated field, where populated
means: a non-empty string for vendor, customer, invoice number, currency,
reference and description; a value of the two-element enum for type; a set
date for issue and due date; and a strictly positive value for the net and
gross amounts (a zero or negative amount, or an invalid type value, counts
as missing and may be overwritten).  The tax amount and the reference and
description fields are in fact never overwritten at all. -/
theorem mergeCompletionResults_preserves_populated (cfg : CompletionConfig)
    (inv : Invoice) (response : ChatGPTResponse) (now : ℕ) :
    (inv.vendor ≠ "" →
      (mergeCompletionResults inv response (validateInvoice cfg inv).2 now).1.vendor
        = inv.vendor) ∧
    (inv.customer ≠ "" →
      (mergeCompletionResults inv response (validateInvoice cfg inv).2 now).1.customer
        = inv.customer) ∧
    (inv.invoiceNumber ≠ "" →
      (mergeCompletionResults inv response (validateInvoice cfg inv).2 now).1.invoiceNumber
        = inv.invoiceNumber) ∧
    ((inv.typ = "PAYABLE" ∨ inv.typ = "RECEIVABLE") →
      (mergeCompletionResults inv response (validateInvoice cfg inv).2 now).1.typ
        = inv.typ) ∧
    (∀ d, inv.issueDate = some d →
      (mergeCompletionResults inv response (validateInvoice cfg inv).2 now).1.issueDate
        = some d) ∧
    (∀ d, inv.dueDate = some d →
      (mergeCompletionResults inv response (validateInvoice cfg inv).2 now).1.dueDate
        = some d) ∧
    (0 < inv.netAmount →
      (mergeCompletionResults inv response (validateInvoice cfg inv).2 now).1.netAmount
        = inv.netAmount) ∧
    ((mergeCompletionResults inv response (validateInvoice cfg inv).2 now).1.vatAmount
        = inv.vatAmount) ∧
    (0 < inv.grossAmount →
      (mergeCompletionResults inv response (validateInvoice cfg inv).2 now).1.grossAmount
        = inv.grossAmount) ∧
    (inv.currency ≠ "" →
      (mergeCompletionResults inv response (validateInvoice cfg inv).2 now).1.currency
        = inv.currency) ∧
    ((mergeCompletionResults inv response (validateInvoice cfg inv).2 now).1.reference
        = inv.reference) ∧
    ((mergeCompletionResults inv response (validateInvoice cfg inv).2 now).1.description
        = inv.description) := by
  refine ⟨?_, ?_, ?_, ?_, ?_, ?_, ?_, ?_, ?_, ?_, ?_, ?_⟩
  · intro h
    have hn : ¬ ("vendor" ∈ (validateInvoice cfg inv).2 ∧ response.vendor ≠ "") :=
      fun hm => h (vendor_missing_imp cfg inv hm.1)
    simp [mergeCompletionResults, hn]
  · intro h
    have hn : ¬ ("customer" ∈ (validateInvoice cfg inv).2 ∧ response.customer ≠ "") :=
      fun hm => h (customer_missing_imp cfg inv hm.1)
    simp [mergeCompletionResults, hn]
  · intro h
    have hn : ¬ ("invoice_number" ∈ (validateInvoice cfg inv).2 ∧ response.invoiceNumber ≠ "") :=
      fun hm => h (invoiceNumber_missing_imp cfg inv hm.1)
    simp [mergeCompletionResults, hn]
  · intro h
    have hn : ¬ ("type" ∈ (validateInvoice cfg inv).2 ∧ response.typ ≠ "") := by
      rintro ⟨hm, -⟩
      rcases type_missing_imp cfg inv hm with he | ⟨h1, h2⟩
      · rcases h with hp | hp <;> rw [hp] at he <;> exact absurd he (by decide)
      · rcases h with hp | hp
        · exact h1 hp
        · exact h2 hp
    simp [mergeCompletionResults, hn]
  · intro d h
    have hn : ¬ (("issue_date" ∈ (validateInvoice cfg inv).2 ∧ response.issueDate ≠ "") ∧
        (parseDateISO response.issueDate).isSome) := by
      rintro ⟨⟨hm, -⟩, -⟩
      rw [issueDate_missing_imp cfg inv hm] at h
      exact Option.noConfusion h
    simp [mergeCompletionResults, hn, h]
  · intro d h
    have hn : ¬ (("due_date" ∈ (validateInvoice cfg inv).2 ∧ response.dueDate ≠ "") ∧
        (parseDateISO response.dueDate).isSome) := by
      rintro ⟨⟨hm, -⟩, -⟩
      rw [dueDate_missing_imp cfg inv hm] at h
      exact Option.noConfusion h
    simp [mergeCompletionResults, hn, h]
  · intro h
    have hn : ¬ (("net_amount" ∈ (validateInvoice cfg inv).2 ∧ response.netAmount ≠ "") ∧
        (parseAmount response.netAmount).isSome) := by
      rintro ⟨⟨hm, -⟩, -⟩
      exact absurd (netAmount_missing_imp cfg inv hm) (not_le.mpr h)
    simp [mergeCompletionResults, hn]
  · have hn : ¬ (("vat_amount" ∈ (validateInvoice cfg inv).2 ∧ response.vatAmount ≠ "") ∧
        (parseAmount response.vatAmount).isSome) := by
      rintro ⟨⟨hm, -⟩, -⟩
      exact vat_never_missing cfg inv hm
    simp [mergeCompletionResults, hn]
  · intro h
    have hn : ¬ (("gross_amount" ∈ (validateInvoice cfg inv).2 ∧ response.grossAmount ≠ "") ∧
        (parseAmount response.grossAmount).isSome) := by
      rintro ⟨⟨hm, -⟩, -⟩
      exact absurd (grossAmount_missing_imp cfg inv hm) (not_le.mpr h)
    simp [mergeCompletionResults, hn]
  · intro h
    have hn : ¬ ("currency" ∈ (validateInvoice cfg inv).2 ∧ response.currency ≠ "") :=
      fun hm => h (currency_missing_imp cfg inv hm.1)
    simp [mergeCompletionResults, hn]
  · have hn : ¬ ("reference" ∈ (validateInvoice cfg inv).2 ∧ response.reference ≠ "") :=
      fun hm => reference_never_missing cfg inv hm.1
    simp [mergeCompletionResults, hn]
  · have hn : ¬ ("description" ∈ (validateInvoice cfg inv).2 ∧ response.description ≠ "") :=
      fun hm => description_never_missing cfg inv hm.1
    simp [mergeCompletionResults, hn]

/-- Witness for C5's amended theorem: a concrete populated vendor survives a
response carrying a different vendor. -/
theorem mergeCompletionResults_preserves_populated_witness :
    (mergeCompletionResults
        { invoiceNumber := "", vendor := "Acme GmbH", typ := "PAYABLE",
          issueDate := some (2024, 1, 2), grossAmount := 100, currency := "EUR" }
        { vendor := "Other Corp", invoiceNumber := "X-1" }
        (validateInvoice ⟨false, 3⟩
          { invoiceNumber := "", vendor := "Acme GmbH", typ := "PAYABLE",
            issueDate := some (2024, 1, 2), grossAmount := 100, currency := "EUR" }).2
        5).1.vendor = "Acme GmbH" :=
  (mergeCompletionResults_preserves_populated ⟨false, 3⟩
    { invoiceNumber := "", vendor := "Acme GmbH", typ := "PAYABLE",
      issueDate := some (2024, 1, 2), grossAmount := 100, currency := "EUR" }
    { vendor := "Other Corp", invoiceNumber := "X-1" } 5).1 (by decide)

/-- Claim C5 as frozen is false on the code: a populated but negative gross
amount (-500 cents, a credit note, which the post-merge validator itself
admits as a legitimate value) is reported missing by the completeness check
(`GrossAmount <= 0`) and therefore overwritten by the generative response's
"100.00", ending at 10000 cents. -/
theorem mergeCompletionResults_claim_counterexample :
    (Invoice.grossAmount
        { invoiceNumber := "R-9", vendor := "V", typ := "PAYABLE",
          issueDate := some (2024, 1, 2), grossAmount := -500, currency := "EUR" } = -500) ∧
      (mergeCompletionResults
          { invoiceNumber := "R-9", vendor := "V", typ := "PAYABLE",
            issueDate := some (2024, 1, 2), grossAmount := -500, currency := "EUR" }
          { grossAmount := "100.00" }
          (validateInvoice ⟨false, 3⟩
            { invoiceNumber := "R-9", vendor := "V", typ := "PAYABLE",
              issueDate := some (2024, 1, 2), grossAmount := -500, currency := "EUR" }).2
          0).1.grossAmount = 10000 := by
  have hpa : parseAmount "100.00" = some 10000 := by
    have h1 : disambiguateDecimal (cleanAmount "100.00".data) = "100.00".data := by decide
    have h2 : splitOnChar '.' "100.00".data = [['1', '0', '0'], ['0', '0']] := by decide
    simp [parseAmount, h1, parseDecimal, parseUnsigned, h2, natOfDigits, allDigits, truncQ]
    norm_num
  have hmiss : (validateInvoice ⟨false, 3⟩
      { invoiceNumber := "R-9", vendor := "V", typ := "PAYABLE",
        issueDate := some (2024, 1, 2), grossAmount := -500, currency := "EUR" }).2
      = ["gross_amount"] := by decide
  refine ⟨rfl, ?_⟩
  simp [mergeCompletionResults, hmiss, hpa]

/-- Claim C6 (confirmed), proved: when the completeness check reports the
invoice complete, `CompleteInvoiceWithConfidence` returns the original
record unchanged with an empty confidence map and no error, and performs
zero external calls (no OCR call, no generative attempt), whatever the
collaborators and the cancellation signal would have done. -/
theorem completeInvoice_short_circuit (cfg : CompletionConfig) (inv : Invoice) (now : ℕ)
    (ocr : Except String OCRResult) (cancelled : ℕ → Bool) (api : ℕ → ChatAttemptOutcome)
    (h : (validateInvoice cfg inv).1 = true) :
    completeInvoiceWithConfidence cfg inv now ocr cancelled api = (Except.ok (inv, []), 0) := by
  simp [completeInvoiceWithConfidence, h]

/-- A concrete invoice the completeness check reports complete under the
lenient policy. -/
def sampleCompleteInvoice : Invoice :=
  { invoiceNumber := "R-1", vendor := "V", typ := "PAYABLE",
    issueDate := some (2024, 1, 2), grossAmount := 100, currency := "EUR" }

/-- Witness for C6: a concrete complete invoice short-circuits. -/
theorem completeInvoice_short_circuit_witness :
    completeInvoiceWithConfidence ⟨false, 3⟩ sampleCompleteInvoice 7
        (Except.ok ⟨"text", 1⟩) (fun _ => false) (fun _ => ChatAttemptOutcome.transportError)
      = (Except.ok (sampleCompleteInvoice, []), 0) :=
  completeInvoice_short_circuit ⟨false, 3⟩ sampleCompleteInvoice 7
    (Except.ok ⟨"text", 1⟩) (fun _ => false) (fun _ => ChatAttemptOutcome.transportError)
    (by decide)

lemma extractLoop_cancelled (api : ℕ → ChatAttemptOutcome) (n k : ℕ) :
    extractLoop (attemptOutcome (fun _ => true) api) k n = (none, n) := by
  induction n generalizing k with
  | zero => rfl
  | succ n ih => simp [extractLoop, attemptOutcome, ih]

/-- Claim C9 evidence (code bug): the retry loop of `extractInvoiceFromText`
never checks the cancellation signal.  With the context cancelled before the
first attempt and `MaxRetries = n`, the loop still performs all `n`
`CreateChatCompletion` calls (each failing against the cancelled context,
each consuming a retry) and only then returns the terminal failure — the
spec requires the loop to abort before the attempt without consuming a
retry. -/
theorem extractInvoiceFromText_ignores_cancellation (n : ℕ) (api : ℕ → ChatAttemptOutcome) :
    extractInvoiceFromText n (fun _ => true) api = (none, n) :=
  extractLoop_cancelled api n 1

/-! ## Transaction matching engine (ChatGPT reconciliation service) -/

/-- `reconciliation.BankTransaction`, reduced to the fields the matching
engine reads (`Date`, `Amount` in major units as `ℚ`) plus the counterparty
used for identifier generation; the remaining free-text payment-reference
fields only flow into the classifier prompt.  Dates are day numbers (the
sources treat them as pure calendar dates). -/
structure BankTransaction where
  date : ℤ
  amount : ℚ
  counterParty : String := ""
deriving DecidableEq, Repr

/-- `reconciliation.InvoiceRow` (amounts in major units as `ℚ`, as in the
Go sheet model). -/
structure InvoiceRow where
  invoiceNumber : String := ""
  date : ℤ := 0
  vendor : String := ""
  customer : String := ""
  netAmount : ℚ := 0
  vatAmount : ℚ := 0
  grossAmount : ℚ := 0
  currency : String := ""
  typ : String := ""
deriving DecidableEq, Repr

/-- `MatchResult`: the classifier's decoded reply. -/
structure MatchResult where
  matched : Bool
  transactionIndex : ℤ
  confidence : ℚ
  reason : String
deriving DecidableEq, Repr

/-- `TransactionCandidate`: a transaction with its original list position
and score. -/
structure TransactionCandidate where
  transaction : BankTransaction
  originalIndex : ℕ
  score : ℚ
  daysDiff : ℕ
deriving DecidableEq, Repr

/-- Go `math.Round`: nearest integer, halves away from zero. -/
def goRound (q : ℚ) : ℤ := if q < 0 then -⌊-q + 1/2⌋ else ⌊q + 1/2⌋

/-- `filterTransactionsByCutoff`: keeps transactions with
`Date.Before(cutoff) || Date.Equal(cutoff)`. -/
def filterTransactionsByCutoff (transactions : List BankTransaction) (cutoffDate : ℤ) :
    List BankTransaction :=
  transactions.filter (fun t => t.date ≤ cutoffDate)

/-- The body of `findCandidateTransactions`' loop for transaction `i`:
`none` when the transaction is already consumed, fails the type-directed
sign gate, or is outside the 1% amount tolerance; otherwise the scored
candidate.  Exactly as in Go: `invoiceAmountCents = round(gross*100)`,
`tolerance = round(|gross|*0.01*100)`, PAYABLE requires a strictly negative
cent amount compared against `-invoiceAmountCents`, RECEIVABLE a strictly
positive one compared against `+invoiceAmountCents`; a `Type` outside the
enum never matches.  (When `tolerance = 0` a match forces `amountDiff = 0`,
where Go's float `0/0` is NaN; the `ℚ` model takes `0/0 = 0`, which only
perturbs the score, never candidacy.) -/
def candidateFor (inv : InvoiceRow) (used : List ℕ) (i : ℕ) (t : BankTransaction) :
    Option TransactionCandidate :=
  if i ∈ used then none
  else
    let invoiceAmountCents := goRound (inv.grossAmount * 100)
    let tolerance := goRound (|inv.grossAmount| * (1/100) * 100)
    let transactionAmountCents := goRound (t.amount * 100)
    let gate : Option ℤ :=
      if inv.typ = "PAYABLE" then
        if transactionAmountCents < 0 then
          some (absInt64 (transactionAmountCents - (-invoiceAmountCents)))
        else none
      else if inv.typ = "RECEIVABLE" then
        if 0 < transactionAmountCents then
          some (absInt64 (transactionAmountCents - invoiceAmountCents))
        else none
      else none
    match gate with
    | none => none
    | some amountDiff =>
        if amountDiff ≤ tolerance then
          let daysDiff : ℕ := (t.date - inv.date).natAbs
          let ap0 : ℚ := 1 - (amountDiff : ℚ) / (tolerance : ℚ)
          let amountPrecision := if ap0 < 0 then 0 else ap0
          let dateScore : ℚ :=
            if 30 < daysDiff then max (1/10) (1 - ((daysDiff : ℚ) - 30) / 365)
            else 1 - (daysDiff : ℚ) / 30 * (3/10)
          some ⟨t, i, amountPrecision * (9/10) + dateScore * (1/10), daysDiff⟩
        else none

/-- The candidate-collection pass of `findCandidateTransactions` (the Go
`for i, transaction := range transactions` loop, before sorting). -/
def collectCandidates (inv : InvoiceRow) (transactions : List BankTransaction)
    (used : List ℕ) : List TransactionCandidate :=
  transactions.enum.filterMap (fun p => candidateFor inv used p.1 p.2)

/-- Insertion step of the score sort (descending). -/
def insertByScore (c : TransactionCandidate) :
    List TransactionCandidate → List TransactionCandidate
  | [] => [c]
  | d :: rest => if d.score ≤ c.score then c :: d :: rest else d :: insertByScore c rest

/-- Descending insertion sort by score.  Go uses `sort.Slice` with
`Score >`, an unspecified, unstable comparison sort; every verified
property is insensitive to the order among equal scores, and insertion
sort is one refinement of it. -/
def sortByScore : List TransactionCandidate → List TransactionCandidate
  | [] => []
  | c :: rest => insertByScore c (sortByScore rest)

/-- `findCandidateTransactions`: collect, sort by descending score, keep
the top `maxCandidates = 10`. -/
def findCandidateTransactions (inv : InvoiceRow) (transactions : List BankTransaction)
    (used : List ℕ) : List TransactionCandidate :=
  (sortByScore (collectCandidates inv transactions used)).take 10

/-- Placeholder candidate for the (guarded) list lookup. -/
def defaultCandidate : TransactionCandidate := ⟨⟨0, 0, ""⟩, 0, 0, 0⟩

/-- The accept decision of `ReconcileAll`'s loop body for one invoice:
`some originalIndex` exactly when the shortlist is non-empty, the
classifier call succeeds with a parseable reply (`oracle` returns `some`;
`none` covers both the transport error and the unparseable-reply fallback,
which Go treats identically to a non-match), the reply says matched, and
its index is within the shortlist's bounds; the consumed transaction is the
referenced candidate's original index. -/
def acceptedIndex (oracle : ℕ → List TransactionCandidate → Option MatchResult)
    (idx : ℕ) (cands : List TransactionCandidate) : Option ℕ :=
  if cands.isEmpty then none
  else
    match oracle idx cands with
    | none => none
    | some mr =>
        if mr.matched = true ∧ 0 ≤ mr.transactionIndex ∧
            mr.transactionIndex < (cands.length : ℤ) then
          some (cands.getD mr.transactionIndex.toNat defaultCandidate).originalIndex
        else none

/-- The accumulated outcome of `ReconcileAll`'s invoice loop: accepted
matches as (invoice position, filtered-transaction index) pairs — the Go
code keys `MatchedInvoices` by generated identifier strings and marks
`usedTransactionIndices[actualIndex]`; the index pairs are that bookkeeping
without the string formatting — the unmatched invoice positions, the
candidate shortlist shown for each invoice in order, and the final
consumed-index set. -/
structure ReconcileOutcome where
  assignments : List (ℕ × ℕ)
  unmatchedInvoices : List ℕ
  candTrace : List (List TransactionCandidate)
  usedFinal : List ℕ
deriving Repr

/-- The invoice-at-a-time loop of `ReconcileAll` over the filtered
transactions, processing invoices from position `idx` with consumed set
`used`. -/
def reconcileLoop (oracle : ℕ → List TransactionCandidate → Option MatchResult)
    (filtered : List BankTransaction) :
    ℕ → List InvoiceRow → List ℕ → ReconcileOutcome
  | _, [], used => ⟨[], [], [], used⟩
  | idx, inv :: rest, used =>
      let cands := findCandidateTransactions inv filtered used
      match acceptedIndex oracle idx cands with
      | some actual =>
          let r := reconcileLoop oracle filtered (idx + 1) rest (actual :: used)
          ⟨(idx, actual) :: r.assignments, r.unmatchedInvoices, cands :: r.candTrace,
            r.usedFinal⟩
      | none =>
          let r := reconcileLoop oracle filtered (idx + 1) rest used
          ⟨r.assignments, idx :: r.unmatchedInvoices, cands :: r.candTrace, r.usedFinal⟩

/-- `ReconciliationResult`, index-based (see `ReconcileOutcome`):
`unmatchedTransactions` lists the filtered-transaction indices never marked
consumed, in order, as the Go final loop does. -/
structure ReconciliationResult where
  assignments : List (ℕ × ℕ)
  unmatchedInvoices : List ℕ
  unmatchedTransactions : List ℕ
  candTrace : List (List TransactionCandidate)
  matchedCount : ℕ
  totalInvoices : ℕ
  totalTransactions : ℕ
deriving Repr

/-- `ReconcileAll` from the ChatGPT reconciliation service: cutoff filter,
then the sequential invoice loop, then the unmatched-transaction sweep.
The external classifier (`matchInvoiceWithChatGPT`) is the oracle
parameter: it receives the invoice position and its candidate shortlist. -/
def reconcileAll (oracle : ℕ → List TransactionCandidate → Option MatchResult)
    (invoices : List InvoiceRow) (transactions : List BankTransaction)
    (cutoffDate : ℤ) : ReconciliationResult :=
  let filtered := filterTransactionsByCutoff transactions cutoffDate
  let r := reconcileLoop oracle filtered 0 invoices []
  { assignments := r.assignments
    unmatchedInvoices := r.unmatchedInvoices
    unmatchedTransactions := (List.range filtered.length).filter (fun i => i ∉ r.usedFinal)
    candTrace := r.candTrace
    matchedCount := r.assignments.length
    totalInvoices := invoices.length
    totalTransactions := transactions.length }

/-! ### Claim-side definitions for C8 -/

/-- Claim C8's candidate rule as frozen: the expected amount is negative
and equal in magnitude to the gross amount for PAYABLE, positive and equal
to the gross amount for RECEIVABLE, and a transaction is a candidate
exactly when its signed cent amount is within the 1% tolerance (on
integer-cent magnitudes) of the expected signed amount. -/
def claimedCandidateRule (inv : InvoiceRow) (t : BankTransaction) : Prop :=
  let invCents := goRound (inv.grossAmount * 100)
  let tc := goRound (t.amount * 100)
  let expected : ℤ := if inv.typ = "PAYABLE" then -(absInt64 invCents) else absInt64 invCents
  (inv.typ = "PAYABLE" ∨ inv.typ = "RECEIVABLE") ∧
    absInt64 (tc - expected) ≤ goRound ((absInt64 invCents : ℚ) / 100)

/-- Claim C8 amended: the expected cent amount is the negation of the
rounded gross cents for PAYABLE (negative only when gross is positive) and
the rounded gross cents for RECEIVABLE, and a transaction passes the amount
filter exactly when its cent amount is strictly negative (PAYABLE)
respectively strictly positive (RECEIVABLE) and within the 1%-of-gross-
magnitude tolerance of the expected amount; other invoice types admit no
candidates. -/
def amendedCandidateRule (inv : InvoiceRow) (t : BankTransaction) : Prop :=
  let invCents := goRound (inv.grossAmount * 100)
  let tc := goRound (t.amount * 100)
  let expected : ℤ := if inv.typ = "PAYABLE" then -invCents else invCents
  (inv.typ = "PAYABLE" ∨ inv.typ = "RECEIVABLE") ∧
    (if inv.typ = "PAYABLE" then tc < 0 else 0 < tc) ∧
    absInt64 (tc - expected) ≤ goRound |inv.grossAmount|

/-! ### Theorems for C7, C8, C10 -/

lemma mem_insertByScore (c a : TransactionCandidate) (l : List TransactionCandidate) :
    a ∈ insertByScore c l ↔ a = c ∨ a ∈ l := by
  induction l with
  | nil => simp [insertByScore]
  | cons d rest ih =>
      unfold insertByScore
      split
      · simp
      · simp [ih]
        tauto

lemma mem_sortByScore (a : TransactionCandidate) (l : List TransactionCandidate) :
    a ∈ sortByScore l ↔ a ∈ l := by
  induction l with
  | nil => simp [sortByScore]
  | cons c rest ih => simp [sortByScore, mem_insertByScore, ih]

lemma candidateFor_fields (inv : InvoiceRow) (used : List ℕ) (i : ℕ)
    (t : BankTransaction) (c : TransactionCandidate)
    (h : candidateFor inv used i t = some c) :
    c.originalIndex = i ∧ c.transaction = t := by
  by_cases hu : i ∈ used
  · simp [candidateFor, hu] at h
  · by_cases hp : inv.typ = "PAYABLE"
    · by_cases hneg : goRound (t.amount * 100) < 0
      · by_cases hdiff : absInt64 (goRound (t.amount * 100) + goRound (inv.grossAmount * 100))
            ≤ goRound |inv.grossAmount|
        · simp [candidateFor, hu, hp, hneg, hdiff] at h
          subst h
          exact ⟨rfl, rfl⟩
        · simp [candidateFor, hu, hp, hneg, hdiff] at h
      · simp [candidateFor, hu, hp, hneg] at h
    · by_cases hr : inv.typ = "RECEIVABLE"
      · by_cases hpos : 0 < goRound (t.amount * 100)
        · by_cases hdiff : absInt64 (goRound (t.amount * 100) - goRound (inv.grossAmount * 100))
              ≤ goRound |inv.grossAmount|
          · simp [candidateFor, hu, hp, hr, hpos, hdiff] at h
            subst h
            exact ⟨rfl, rfl⟩
          · simp [candidateFor, hu, hp, hr, hpos, hdiff] at h
        · simp [candidateFor, hu, hp, hr, hpos] at h
      · simp [candidateFor, hu, hp, hr] at h

lemma candidateFor_isSome_iff (inv : InvoiceRow) (used : List ℕ) (i : ℕ)
    (t : BankTransaction) :
    (candidateFor inv used i t).isSome ↔ (i ∉ used ∧ amendedCandidateRule inv t) := by
  by_cases hu : i ∈ used
  · simp [candidateFor, amendedCandidateRule, hu]
  · by_cases hp : inv.typ = "PAYABLE"
    · by_cases hneg : goRound (t.amount * 100) < 0
      · by_cases hdiff : absInt64 (goRound (t.amount * 100) + goRound (inv.grossAmount * 100))
            ≤ goRound |inv.grossAmount|
        · simp [candidateFor, amendedCandidateRule, hu, hp, hneg, hdiff]
        · simp [candidateFor, amendedCandidateRule, hu, hp, hneg, hdiff]
      · simp [candidateFor, amendedCandidateRule, hu, hp, hneg]
    · by_cases hr : inv.typ = "RECEIVABLE"
      · by_cases hpos : 0 < goRound (t.amount * 100)
        · by_cases hdiff : absInt64 (goRound (t.amount * 100) - goRound (inv.grossAmount * 100))
              ≤ goRound |inv.grossAmount|
          · simp [candidateFor, amendedCandidateRule, hu, hp, hr, hpos, hdiff]
          · simp [candidateFor, amendedCandidateRule, hu, hp, hr, hpos, hdiff]
        · simp [candidateFor, amendedCandidateRule, hu, hp, hr, hpos]
      · simp [candidateFor, amendedCandidateRule, hu, hp, hr]

lemma mem_collectCandidates_bound (inv : InvoiceRow) (txs : List BankTransaction)
    (used : List ℕ) (c : TransactionCandidate)
    (h : c ∈ collectCandidates inv txs used) :
    c.originalIndex ∉ used ∧ c.originalIndex < txs.length := by
  unfold collectCandidates at h
  rcases List.mem_filterMap.mp h with ⟨p, hp, hc⟩
  obtain ⟨h1, -⟩ := candidateFor_fields inv used p.1 p.2 c hc
  have hsome : (candidateFor inv used p.1 p.2).isSome := by rw [hc]; rfl
  have hrule := (candidateFor_isSome_iff inv used p.1 p.2).mp hsome
  have hlen : p.1 < txs.length := by
    have hq := List.mem_enum_iff_getElem?.mp (show p ∈ txs.enum from hp)
    obtain ⟨hl, -⟩ := List.getElem?_eq_some.mp hq
    exact hl
  rw [h1]
  exact ⟨hrule.1, hlen⟩

lemma mem_findCandidateTransactions (inv : InvoiceRow) (txs : List BankTransaction)
    (used : List ℕ) (c : TransactionCandidate)
    (h : c ∈ findCandidateTransactions inv txs used) :
    c ∈ collectCandidates inv txs used := by
  unfold findCandidateTransactions at h
  exact (mem_sortByScore c _).mp (List.take_subset _ _ h)

lemma acceptedIndex_some (oracle : ℕ → List TransactionCandidate → Option MatchResult)
    (idx : ℕ) (cands : List TransactionCandidate) (a : ℕ)
    (h : acceptedIndex oracle idx cands = some a) :
    ∃ c ∈ cands, c.originalIndex = a := by
  unfold acceptedIndex at h
  split at h
  · exact absurd h (by simp)
  · split at h
    · exact absurd h (by simp)
    · split at h
      · refine ⟨_, ?_, Option.some.inj h⟩
        rw [List.getD_eq_getElem _ _ (by omega)]
        exact List.getElem_mem _
      · exact absurd h (by simp)

lemma reconcileLoop_spec (oracle : ℕ → List TransactionCandidate → Option MatchResult)
    (filtered : List BankTransaction) :
    ∀ (invs : List InvoiceRow) (idx : ℕ) (used : List ℕ),
      (∀ u ∈ used, u ∈ (reconcileLoop oracle filtered idx invs used).usedFinal) ∧
      (∀ p ∈ (reconcileLoop oracle filtered idx invs used).assignments,
        idx ≤ p.1 ∧ p.2 ∈ (reconcileLoop oracle filtered idx invs used).usedFinal ∧
          p.2 ∉ used) ∧
      ((reconcileLoop oracle filtered idx invs used).assignments.map Prod.snd).Nodup ∧
      (reconcileLoop oracle filtered idx invs used).candTrace.length = invs.length ∧
      (∀ k, ∀ c ∈ (reconcileLoop oracle filtered idx invs used).candTrace.getD k [],
        c.originalIndex ∉ used ∧ c.originalIndex < filtered.length) ∧
      (∀ p ∈ (reconcileLoop oracle filtered idx invs used).assignments, ∀ k,
        p.1 < idx + k →
          ∀ c ∈ (reconcileLoop oracle filtered idx invs used).candTrace.getD k [],
            c.originalIndex ≠ p.2) := by
  intro invs
  induction invs with
  | nil =>
      intro idx used
      refine ⟨fun u hu => hu, by simp [reconcileLoop], by simp [reconcileLoop],
        by simp [reconcileLoop], ?_, by simp [reconcileLoop]⟩
      intro k c hc
      simp only [reconcileLoop] at hc
      rw [List.getD_eq_default] at hc
      · exact absurd hc (by simp)
      · simp
  | cons inv rest ih =>
      intro idx used
      have hcands : ∀ c ∈ findCandidateTransactions inv filtered used,
          c.originalIndex ∉ used ∧ c.originalIndex < filtered.length :=
        fun c hc => mem_collectCandidates_bound inv filtered used c
          (mem_findCandidateTransactions inv filtered used c hc)
      rcases hacc : acceptedIndex oracle idx (findCandidateTransactions inv filtered used)
        with _ | actual
      · -- unmatched branch
        obtain ⟨L1, L2, L3, L4, L5, L6⟩ := ih (idx + 1) used
        refine ⟨?_, ?_, ?_, ?_, ?_, ?_⟩ <;>
          simp only [reconcileLoop, hacc]
        · exact L1
        · intro p hp
          obtain ⟨ha, hb, hc⟩ := L2 p hp
          exact ⟨by omega, hb, hc⟩
        · exact L3
        · simpa using L4
        · intro k
          cases k with
          | zero => exact fun c hc => hcands c hc
          | succ k => exact fun c hc => L5 k c hc
        · intro p hp k hk
          cases k with
          | zero =>
              obtain ⟨ha, -, -⟩ := L2 p hp
              omega
          | succ k =>
              exact fun c hc => L6 p hp k (by omega) c hc
      · -- accepted branch
        obtain ⟨c0, hc0, hc0i⟩ := acceptedIndex_some oracle idx _ actual hacc
        obtain ⟨hnotused, hlt⟩ :=
          hc0i ▸ hcands c0 hc0
        obtain ⟨L1, L2, L3, L4, L5, L6⟩ := ih (idx + 1) (actual :: used)
        refine ⟨?_, ?_, ?_, ?_, ?_, ?_⟩ <;>
          simp only [reconcileLoop, hacc]
        · exact fun u hu => L1 u (by simp [hu])
        · intro p hp
          rcases List.mem_cons.mp hp with rfl | hp'
          · exact ⟨le_refl _, L1 actual (by simp), hnotused⟩
          · obtain ⟨ha, hb, hc⟩ := L2 p hp'
            exact ⟨by omega, hb, fun hmem => hc (by simp [hmem])⟩
        · rw [List.map_cons, List.nodup_cons]
          refine ⟨?_, L3⟩
          intro hmem
          rcases List.mem_map.mp hmem with ⟨p, hp, hpe⟩
          obtain ⟨-, -, hc⟩ := L2 p hp
          exact hc (by simp [hpe])
        · simpa using L4
        · intro k
          cases k with
          | zero => exact fun c hc => hcands c hc
          | succ k =>
              intro c hc
              obtain ⟨ha, hb⟩ := L5 k c hc
              exact ⟨fun hmem => ha (by simp [hmem]), hb⟩
        · intro p hp k hk
          rcases List.mem_cons.mp hp with rfl | hp'
          · cases k with
            | zero => omega
            | succ k =>
                intro c hc
                obtain ⟨ha, -⟩ := L5 k c hc
                simp only [List.mem_cons] at ha
                intro hce
                exact ha (Or.inl hce)
          · cases k with
            | zero =>
                obtain ⟨ha, -, -⟩ := L2 p hp'
                omega
            | succ k =>
                exact fun c hc => L6 p hp' k (by omega) c hc

/-- Claim C7 (confirmed), proved: in `ReconcileAll`, whatever the
classifier does, (1) the accepted matches consume pairwise distinct
transaction indices — every transaction is consumed by at most one
invoice; (2) a consumed transaction never appears in the final
unmatched-transactions list; (3) once a transaction is consumed by an
earlier invoice's accepted match, it never appears in any later invoice's
candidate shortlist. -/
theorem reconcileAll_matching_exclusivity
    (oracle : ℕ → List TransactionCandidate → Option MatchResult)
    (invoices : List InvoiceRow) (transactions : List BankTransaction) (cutoffDate : ℤ) :
    (((reconcileAll oracle invoices transactions cutoffDate).assignments.map
        Prod.snd).Nodup) ∧
      (∀ p ∈ (reconcileAll oracle invoices transactions cutoffDate).assignments,
        p.2 ∉ (reconcileAll oracle invoices transactions cutoffDate).unmatchedTransactions) ∧
      (∀ p ∈ (reconcileAll oracle invoices transactions cutoffDate).assignments,
        ∀ j, p.1 < j →
          p.2 ∉ ((reconcileAll oracle invoices transactions cutoffDate).candTrace.getD
            j []).map TransactionCandidate.originalIndex) := by
  obtain ⟨L1, L2, L3, L4, L5, L6⟩ :=
    reconcileLoop_spec oracle (filterTransactionsByCutoff transactions cutoffDate)
      invoices 0 []
  refine ⟨L3, ?_, ?_⟩
  · intro p hp
    obtain ⟨-, hin, -⟩ := L2 p hp
    simp only [reconcileAll, List.mem_filter, decide_eq_true_eq]
    rintro ⟨-, habs⟩
    exact habs hin
  · intro p hp j hj hmem
    rcases List.mem_map.mp hmem with ⟨c, hc, hce⟩
    exact L6 p hp j (by omega) c hc hce

/-- Claim C8 (amended), proved: (1) a transaction index survives the amount
filter of `findCandidateTransactions` exactly when it is not yet consumed
and the amended candidate rule holds for it: the cent amount is strictly
negative (PAYABLE) respectively strictly positive (RECEIVABLE) and within
the 1%-of-gross-magnitude tolerance of the expected amount, where the
expected amount is the negation of the rounded gross cents for PAYABLE and
the rounded gross cents for RECEIVABLE; (2) the returned shortlist only
contains amount-filtered candidates (it is the top-10 of them by score);
(3) in particular a positive (incoming) transaction is never in a PAYABLE
invoice's shortlist. -/
theorem findCandidateTransactions_meets_amended_claim (inv : InvoiceRow)
    (txs : List BankTransaction) (used : List ℕ) :
    (∀ t : ℕ,
      ((∃ c ∈ collectCandidates inv txs used, c.originalIndex = t) ↔
        (∃ txn, txs[t]? = some txn ∧ t ∉ used ∧ amendedCandidateRule inv txn))) ∧
      (∀ c ∈ findCandidateTransactions inv txs used,
        c ∈ collectCandidates inv txs used) ∧
      (∀ c ∈ findCandidateTransactions inv txs used, inv.typ = "PAYABLE" →
        goRound (c.transaction.amount * 100) < 0) := by
  refine ⟨?_, mem_findCandidateTransactions inv txs used, ?_⟩
  · intro t
    constructor
    · rintro ⟨c, hc, rfl⟩
      unfold collectCandidates at hc
      rcases List.mem_filterMap.mp hc with ⟨p, hp, hcf⟩
      obtain ⟨h1, h2⟩ := candidateFor_fields inv used p.1 p.2 c hcf
      have hsome : (candidateFor inv used p.1 p.2).isSome := by rw [hcf]; rfl
      obtain ⟨hnu, hrule⟩ := (candidateFor_isSome_iff inv used p.1 p.2).mp hsome
      refine ⟨p.2, ?_, ?_, hrule⟩
      · rw [h1]
        exact List.mem_enum_iff_getElem?.mp hp
      · rw [h1]; exact hnu
    · rintro ⟨txn, hget, hnu, hrule⟩
      have hsome : (candidateFor inv used t txn).isSome :=
        (candidateFor_isSome_iff inv used t txn).mpr ⟨hnu, hrule⟩
      obtain ⟨c, hc⟩ := Option.isSome_iff_exists.mp hsome
      obtain ⟨h1, -⟩ := candidateFor_fields inv used t txn c hc
      refine ⟨c, ?_, h1⟩
      unfold collectCandidates
      exact List.mem_filterMap.mpr ⟨(t, txn), List.mem_enum_iff_getElem?.mpr hget, hc⟩
  · intro c hc hp
    have hcol := mem_findCandidateTransactions inv txs used c hc
    unfold collectCandidates at hcol
    rcases List.mem_filterMap.mp hcol with ⟨p, hp', hcf⟩
    obtain ⟨-, h2⟩ := candidateFor_fields inv used p.1 p.2 c hcf
    have hsome : (candidateFor inv used p.1 p.2).isSome := by rw [hcf]; rfl
    obtain ⟨-, -, hsign, -⟩ := (candidateFor_isSome_iff inv used p.1 p.2).mp hsome
    rw [h2]
    simpa [hp] using hsign

/-- Witness for C8's amended theorem: a concrete eligible transaction (a
-100.00 outgoing payment against a PAYABLE invoice of gross 100.00) is in
the candidate set at its index. -/
theorem findCandidateTransactions_meets_amended_claim_witness :
    ∃ c ∈ collectCandidates { typ := "PAYABLE", grossAmount := 100 } [⟨0, -100, "x"⟩] [],
      c.originalIndex = 0 :=
  ((findCandidateTransactions_meets_amended_claim
      { typ := "PAYABLE", grossAmount := 100 } [⟨0, -100, "x"⟩] []).1 0).mpr
    ⟨⟨0, -100, "x"⟩, by simp, by simp, by
      refine ⟨Or.inl rfl, ?_, ?_⟩ <;>
        norm_num [goRound, absInt64]⟩

/-- Claim C8 as frozen is false on the code: for a PAYABLE invoice with a
negative gross amount of -10.00 (a credit note) and a transaction of
-10.00, the claim's rule (expected = negative of the gross magnitude,
i.e. -1000 cents; |(-1000) - (-1000)| = 0 within the 10-cent tolerance)
makes the transaction a candidate, but the code compares against
`-round(gross*100) = +1000` cents, so the difference is 2000 cents and the
shortlist is empty. -/
theorem findCandidateTransactions_claim_counterexample :
    findCandidateTransactions { invoiceNumber := "K-1", typ := "PAYABLE", grossAmount := -10 }
        [⟨0, -10, "x"⟩] [] = [] ∧
      claimedCandidateRule { invoiceNumber := "K-1", typ := "PAYABLE", grossAmount := -10 }
        ⟨0, -10, "x"⟩ := by
  constructor
  · have hc : candidateFor { invoiceNumber := "K-1", typ := "PAYABLE", grossAmount := -10 }
        [] 0 ⟨0, -10, "x"⟩ = none := by
      norm_num [candidateFor, goRound, absInt64]
    simp [findCandidateTransactions, collectCandidates, List.enum, List.enumFrom,
      hc, sortByScore]
  · refine ⟨Or.inl rfl, ?_⟩
    norm_num [goRound, absInt64]

lemma acceptedIndex_eq_none (oracle : ℕ → List TransactionCandidate → Option MatchResult)
    (idx : ℕ) (cands : List TransactionCandidate) (mr : MatchResult)
    (hor : oracle idx cands = some mr) (hm : mr.matched = true)
    (hbad : mr.transactionIndex < 0 ∨ (cands.length : ℤ) ≤ mr.transactionIndex) :
    acceptedIndex oracle idx cands = none := by
  unfold acceptedIndex
  split
  · rfl
  · rw [hor]
    have hno : ¬(mr.matched = true ∧ 0 ≤ mr.transactionIndex ∧
        mr.transactionIndex < (cands.length : ℤ)) := by
      rintro ⟨-, h1, h2⟩
      omega
    simp [hno]

lemma reconcileLoop_bad (oracle : ℕ → List TransactionCandidate → Option MatchResult)
    (filtered : List BankTransaction) :
    ∀ (invs : List InvoiceRow) (idx : ℕ) (used : List ℕ) (k : ℕ) (mr : MatchResult),
      k < invs.length →
      oracle (idx + k) ((reconcileLoop oracle filtered idx invs used).candTrace.getD k [])
        = some mr →
      mr.matched = true →
      (mr.transactionIndex < 0 ∨
        ((((reconcileLoop oracle filtered idx invs used).candTrace.getD k []).length : ℤ)
          ≤ mr.transactionIndex)) →
      (idx + k) ∈ (reconcileLoop oracle filtered idx invs used).unmatchedInvoices ∧
        ∀ p ∈ (reconcileLoop oracle filtered idx invs used).assignments, p.1 ≠ idx + k := by
  intro invs
  induction invs with
  | nil =>
      intro idx used k mr hk
      simp at hk
  | cons inv rest ih =>
      intro idx used k mr hk hor hm hbad
      rcases hacc : acceptedIndex oracle idx (findCandidateTransactions inv filtered used)
        with _ | actual
      · cases k with
        | zero =>
            constructor
            · simp [reconcileLoop, hacc]
            · intro p hp
              simp only [reconcileLoop, hacc] at hp
              obtain ⟨hge, -, -⟩ :=
                ((reconcileLoop_spec oracle filtered rest (idx + 1) used).2.1) p hp
              omega
        | succ k =>
            simp only [reconcileLoop, hacc, List.getD_cons_succ] at hor hbad
            have heq : idx + (k + 1) = (idx + 1) + k := by omega
            rw [heq] at hor
            obtain ⟨hmem, hass⟩ := ih (idx + 1) used k mr (by simpa using hk) hor hm hbad
            constructor
            · rw [heq]
              simp only [reconcileLoop, hacc]
              exact List.mem_cons_of_mem _ hmem
            · intro p hp
              simp only [reconcileLoop, hacc] at hp
              rw [heq]
              exact hass p hp
      · cases k with
        | zero =>
            exfalso
            have hhead : (reconcileLoop oracle filtered idx (inv :: rest) used).candTrace.getD
                0 [] = findCandidateTransactions inv filtered used := by
              simp [reconcileLoop, hacc]
            rw [hhead] at hor hbad
            have hnone := acceptedIndex_eq_none oracle idx
              (findCandidateTransactions inv filtered used) mr (by simpa using hor) hm hbad
            rw [hnone] at hacc
            exact Option.noConfusion hacc
        | succ k =>
            simp only [reconcileLoop, hacc, List.getD_cons_succ] at hor hbad
            have heq : idx + (k + 1) = (idx + 1) + k := by omega
            rw [heq] at hor
            obtain ⟨hmem, hass⟩ :=
              ih (idx + 1) (actual :: used) k mr (by simpa using hk) hor hm hbad
            constructor
            · rw [heq]
              simp only [reconcileLoop, hacc]
              exact hmem
            · intro p hp
              simp only [reconcileLoop, hacc] at hp
              rw [heq]
              rcases List.mem_cons.mp hp with rfl | hp'
              · simp
                omega
              · exact hass p hp'

/-- Claim C10 (confirmed), proved: if for invoice `i` the classifier replies
matched with an index that is negative or not below the shortlist length,
`ReconcileAll` never uses it to index the shortlist: the invoice is
reported unmatched, no transaction is consumed on its behalf, and every
invoice is still processed (one candidate-trace entry per invoice). -/
theorem reconcileAll_range_checks_classifier_index
    (oracle : ℕ → List TransactionCandidate → Option MatchResult)
    (invoices : List InvoiceRow) (transactions : List BankTransaction) (cutoffDate : ℤ)
    (i : ℕ) (mr : MatchResult)
    (hi : i < invoices.length)
    (hor : oracle i ((reconcileAll oracle invoices transactions cutoffDate).candTrace.getD
      i []) = some mr)
    (hm : mr.matched = true)
    (hbad : mr.transactionIndex < 0 ∨
      ((((reconcileAll oracle invoices transactions cutoffDate).candTrace.getD i
        []).length : ℤ) ≤ mr.transactionIndex)) :
    i ∈ (reconcileAll oracle invoices transactions cutoffDate).unmatchedInvoices ∧
      (∀ p ∈ (reconcileAll oracle invoices transactions cutoffDate).assignments,
        p.1 ≠ i) ∧
      (reconcileAll oracle invoices transactions cutoffDate).candTrace.length
        = invoices.length := by
  have hl4 := (reconcileLoop_spec oracle (filterTransactionsByCutoff transactions cutoffDate)
    invoices 0 []).2.2.2.1
  obtain ⟨hmem, hass⟩ := reconcileLoop_bad oracle
    (filterTransactionsByCutoff transactions cutoffDate) invoices 0 [] i mr hi
    (by simpa using hor) hm (by simpa using hbad)
  exact ⟨by simpa using hmem, fun p hp => by simpa using hass p hp, hl4⟩

/-- Witness for C10: a classifier reply of matched with index -1 leaves the
single invoice unmatched. -/
theorem reconcileAll_range_checks_classifier_index_witness :
    0 ∈ (reconcileAll (fun _ _ => some ⟨true, -1, 1, "r"⟩)
        [{ typ := "PAYABLE", grossAmount := 100 }] [⟨0, -100, "x"⟩] 5).unmatchedInvoices :=
  (reconcileAll_range_checks_classifier_index (fun _ _ => some ⟨true, -1, 1, "r"⟩)
    [{ typ := "PAYABLE", grossAmount := 100 }] [⟨0, -100, "x"⟩] 5 0 ⟨true, -1, 1, "r"⟩
    (by simp) rfl rfl (Or.inl (by decide))).1
